import Mathlib

/-!
Verification of the Choco Crunch analytics pipeline, a shallow embedding of
src/run_all.py.

Modelling conventions, fixed once for the whole file:

* Python floats are modelled as `ℚ`; the float NaN produced by a failed parse
  is the per-field null of the pipeline and is modelled as `none` / `Val.null`.
* A pandas DataFrame is modelled as a list of column names plus a list of
  rows; a row is an association list from column names to cell values, which
  mirrors the dict-of-values construction used by the source.  Accessing a
  column that is not in the column list is a `KeyError`, modelled with
  `Except String`.
* Python exceptions are modelled by `Except String`; a Lean function that is
  total and returns `Option`/plain values models Python code that cannot
  raise.
* The CSV/parquet interchange between pipeline steps (to_csv followed by
  read_csv) is treated as an identity serialization boundary, as section 9 of
  the specification directs; the in-memory tables are handed from step to
  step unchanged.
* `float(token)` is modelled for the decimal forms
  sign digits [. digits] [(e|E) sign digits]; the special Python spellings
  inf/infinity/nan and underscore digit separators are not modelled (nan
  parses to the NaN null sentinel anyway, and none of those forms occur in
  nutrient data).  Python str.split() splits on Unicode whitespace; the model
  uses `Char.isWhitespace`.  Python str.title() word boundaries use cased
  characters; the model uses `Char.isAlpha`.
-/

/-- A cell value of an in-memory pandas table: a float (modelled as `ℚ`), a
string, or null (Python `None` or float NaN). -/
inductive Val where
  | null : Val
  | num : ℚ → Val
  | str : String → Val
deriving DecidableEq, Repr

/-- Numeric value of a decimal digit character, `none` for any other
character. -/
def digit? (c : Char) : Option ℕ :=
  if ('0' : Char) ≤ c ∧ c ≤ ('9' : Char) then some (c.toNat - 48) else none

/-- Longest digit run at the front of a character list, as digit values,
together with the remaining characters. -/
def spanDigits : List Char → List ℕ × List Char
  | [] => ([], [])
  | c :: cs =>
    match digit? c with
    | some d =>
      let p := spanDigits cs
      (d :: p.1, p.2)
    | none => ([], c :: cs)

/-- Optional leading sign of a numeric literal: the sign factor and the
remaining characters. -/
def readSign : List Char → ℤ × List Char
  | [] => (1, [])
  | c :: cs =>
    if c = ('-' : Char) then (-1, cs)
    else if c = ('+' : Char) then (1, cs) else (1, c :: cs)

/-- Value of a most-significant-first digit list. -/
def digitsVal (l : List ℕ) : ℕ := l.foldl (fun a d => 10 * a + d) 0

/-- Exponent part of a float literal, after the letter e: optional sign and a
nonempty digit run consuming the whole rest. -/
def parseExpPart (cs : List Char) : Option ℤ :=
  let s := readSign cs
  let p := spanDigits s.2
  if p.1 = [] ∨ p.2 ≠ [] then none else some (s.1 * (digitsVal p.1 : ℤ))

/-- Fold an exponent into a mantissa/scale pair; the pair (n, k) denotes the
value n / 10 ^ k. -/
def applyExp (n : ℤ) (k : ℕ) (e : ℤ) : ℤ × ℕ :=
  if 0 ≤ e then (n * (10 : ℤ) ^ e.toNat, k) else (n, k + (-e).toNat)

/-- After the mantissa of a float literal: either the end of the token or an
exponent part. -/
def finishNum (sgn : ℤ) (m k : ℕ) : List Char → Option (ℤ × ℕ)
  | [] => some (sgn * (m : ℤ), k)
  | c :: cs =>
    if c = ('e' : Char) ∨ c = ('E' : Char) then
      (parseExpPart cs).map (fun e => applyExp (sgn * (m : ℤ)) k e)
    else none

/-- Parse one whitespace-free token the way Python float(token) does on
decimal literals, returning mantissa and scale: the pair (n, k) denotes
n / 10 ^ k.  `none` models the ValueError raised on malformed input. -/
def pyFloatParts (cs : List Char) : Option (ℤ × ℕ) :=
  let s := readSign cs
  let p := spanDigits s.2
  match p.2 with
  | ('.' : Char) :: r2 =>
    let q := spanDigits r2
    if p.1 = [] ∧ q.1 = [] then none
    else finishNum s.1 (digitsVal (p.1 ++ q.1)) q.1.length q.2
  | r1 =>
    if p.1 = [] then none else finishNum s.1 (digitsVal p.1) 0 r1

/-- Rational value of a mantissa/scale pair. -/
def partsToQ (p : ℤ × ℕ) : ℚ := (p.1 : ℚ) / (10 : ℚ) ^ p.2

/-- Python float(token) on a decimal literal, as a rational. -/
def pyFloat (t : List Char) : Option ℚ := (pyFloatParts t).map partsToQ

/-- Accumulator version of Python str.split(): split on whitespace runs and
drop empty pieces. -/
def splitWsAux : List Char → List Char → List (List Char)
  | [], acc => if acc = [] then [] else [acc.reverse]
  | c :: cs, acc =>
    if c.isWhitespace then
      if acc = [] then splitWsAux cs [] else acc.reverse :: splitWsAux cs []
    else splitWsAux cs (c :: acc)

/-- Python str.split() with no separator argument: whitespace-delimited
tokens of a string. -/
def pySplit (s : String) : List (List Char) := splitWsAux s.data []

/-- Embedding of to_float (src/run_all.py lines 32 to 34):
float(str(x).split()[0]) under try/except, where any failure gives NaN.  The
input is the value bound to a nutrient key; an absent key or JSON null is
`none` (Python then computes float("None"), which also fails, so both paths
give the null result). -/
def to_float (x : Option String) : Option ℚ :=
  match x with
  | none => none
  | some s =>
    match pySplit s with
    | [] => none
    | t :: _ => pyFloat t

/-- Python str.strip(): drop whitespace from both ends. -/
def pyStrip (l : List Char) : List Char :=
  ((l.dropWhile Char.isWhitespace).reverse.dropWhile Char.isWhitespace).reverse

/-- Accumulator version of Python str.title(): uppercase a letter after a
non-letter, lowercase a letter after a letter. -/
def pyTitleAux : Bool → List Char → List Char
  | _, [] => []
  | prev, c :: cs =>
    (if c.isAlpha then (if prev then c.toLower else c.toUpper) else c) ::
      pyTitleAux c.isAlpha cs

/-- Python str.title(). -/
def pyTitle (l : List Char) : List Char := pyTitleAux false l

/-- Characters of a string before its first comma: str(b).split(",")[0]. -/
def firstCommaSeg (l : List Char) : List Char :=
  l.takeWhile (fun c => c ≠ (',' : Char))

/-- Embedding of normalize_brand (src/run_all.py lines 38 to 41): Unknown for
a falsy (absent or empty) raw value, otherwise the first comma segment
stripped and title-cased, with Unknown again if the stripped segment is
empty. -/
def normalize_brand (b : Option String) : String :=
  match b with
  | none => "Unknown"
  | some s =>
    if s = "" then "Unknown"
    else
      let first := pyStrip (firstCommaSeg s.data)
      if first = [] then "Unknown" else String.mk (pyTitle first)

/-- Embedding of cat_cal (src/run_all.py lines 146 to 150) on a float cell,
with NaN as `none`. -/
def cat_cal (k : Option ℚ) : String :=
  match k with
  | none => "Unknown"
  | some v => if v ≤ 150 then "Low" else if v ≤ 300 then "Moderate" else "High"

/-- Embedding of cat_sug (src/run_all.py lines 153 to 157). -/
def cat_sug (s : Option ℚ) : String :=
  match s with
  | none => "Unknown"
  | some v => if v < 5 then "Low" else if v ≤ 15 then "Moderate" else "High"

/-- Embedding of the is_ultra_processed lambda (src/run_all.py line 160):
Yes if nova-group equals 4, No for any other known value, Unknown for NaN. -/
def ultraOf (n : Option ℚ) : String :=
  match n with
  | none => "Unknown"
  | some v => if v = 4 then "Yes" else "No"

/-- np.clip(x, 0, 1). -/
def clip01 (x : ℚ) : ℚ := min 1 (max 0 x)

/-- Embedding of the sugar_to_carb_ratio rule (src/run_all.py lines 142 to
144): np.where((carb greater than 0) and sugars non-null, clip of the
quotient, NaN).  A null carbohydrate value fails the positivity test exactly
as NaN does in numpy. -/
def ratioOf (s c : Option ℚ) : Option ℚ :=
  match s, c with
  | some sv, some cv => if 0 < cv then some (clip01 (sv / cv)) else none
  | _, _ => none

/-- Numeric content of a cell, `none` for null and string cells. -/
def Val.toQ : Val → Option ℚ
  | Val.num q => some q
  | _ => none

/-- Cell from an optional rational (NaN becomes null). -/
def ofQ? : Option ℚ → Val
  | some q => Val.num q
  | none => Val.null

/-- pd.isna on a cell. -/
def Val.isna : Val → Bool
  | Val.null => true
  | _ => false

/-- Strictly-greater comparison of a cell against a number, as pandas
evaluates df[col] greater-than q: NaN compares false.  (String cells also
give false; in the pipeline the compared columns only hold floats.) -/
def Val.gtQ : Val → ℚ → Bool
  | Val.num x, q => decide (q < x)
  | _, _ => false

/-- A row of an in-memory DataFrame: an association list from column names
to cells, mirroring the dict rows built by the source. -/
abbrev Row := List (String × Val)

/-- Cell of a row at a column; a key absent from the row reads as NaN. -/
def cell (r : Row) (c : String) : Val := (List.lookup c r).getD Val.null

/-- An in-memory pandas DataFrame: ordered column names and rows. -/
structure DataFrame where
  cols : List String
  rows : List Row
deriving DecidableEq, Repr

/-- Column names inferred by pd.DataFrame from a list of dict rows: keys in
order of first appearance.  An empty row list gives no columns at all. -/
def inferCols (rows : List Row) : List String :=
  rows.foldl (fun acc r => acc ++ (r.map Prod.fst).filter (fun c => !(acc.contains c))) []

/-- pd.DataFrame built from a list of dict rows. -/
def mkFrame (rows : List Row) : DataFrame := ⟨inferCols rows, rows⟩

/-- Column read df[c], a KeyError when the column is absent. -/
def getCol (df : DataFrame) (c : String) : Except String (List Val) :=
  if c ∈ df.cols then .ok (df.rows.map (fun r => cell r c)) else .error ("KeyError: " ++ c)

/-- Write one cell of a row, appending the binding when the key is new. -/
def setCell (r : Row) (c : String) (v : Val) : Row :=
  if (List.lookup c r).isSome then
    r.map (fun kv => if kv.1 = c then (c, v) else kv)
  else r ++ [(c, v)]

/-- Column assignment df[c] = series: overwrite an existing column or append
a new one on the right, pairing values with rows by position. -/
def setCol (df : DataFrame) (c : String) (vs : List Val) : DataFrame :=
  ⟨if c ∈ df.cols then df.cols else df.cols ++ [c],
   List.zipWith (fun r v => setCell r c v) df.rows vs⟩

/-- Keep-first deduplication by a key function, preserving order; the first
argument accumulates the keys already seen. -/
def dedupByAux (f : α → β) [DecidableEq β] : List β → List α → List α
  | _, [] => []
  | seen, x :: xs =>
    if f x ∈ seen then dedupByAux f seen xs
    else x :: dedupByAux f (f x :: seen) xs

/-- Keep-first deduplication by a key function, preserving order. -/
def dedupBy (f : α → β) [DecidableEq β] (l : List α) : List α := dedupByAux f [] l

/-- df.drop_duplicates(c) with the default keep equal to first; pandas raises
a KeyError when c is not a column, also on an empty, column-less frame. -/
def dropDuplicates (df : DataFrame) (c : String) : Except String DataFrame :=
  if c ∈ df.cols then .ok ⟨df.cols, dedupBy (fun r => cell r c) df.rows⟩
  else .error ("KeyError: " ++ c)

/-- Null-filled right half for an unmatched left row of a left join. -/
def padRight (cols2 : List String) : Row := cols2.map (fun c => (c, Val.null))

/-- Output rows a single left row contributes to a left join: one null-padded
row when no right row matches the key, otherwise one row per match. -/
def mergeRows (rows2 : List Row) (cols2 : List String) (c : String) (r1 : Row) : List Row :=
  match rows2.filter (fun r2 => cell r2 c == cell r1 c) with
  | [] => [r1 ++ padRight cols2]
  | ms => ms.map (fun r2 => r1 ++ r2.filter (fun kv => kv.1 ≠ c))

/-- df1.merge(df2, on c, how left): KeyError when either side lacks the key
column; null keys match each other, as pandas merge matches NaN keys. -/
def mergeLeft (df1 df2 : DataFrame) (c : String) : Except String DataFrame :=
  if c ∈ df1.cols ∧ c ∈ df2.cols then
    let cols2 := df2.cols.filter (fun x => x ≠ c)
    .ok ⟨df1.cols ++ cols2, df1.rows.flatMap (mergeRows df2.rows cols2 c)⟩
  else .error ("KeyError: " ++ c)

/-- First missing column of a query, as the KeyError pandas raises when the
query touches a column the frame does not have. -/
def requireCols (df : DataFrame) (cs : List String) : Except String Unit :=
  match cs.find? (fun c => !(df.cols.contains c)) with
  | some c => .error ("KeyError: " ++ c)
  | none => .ok ()

/-- Boolean-mask row filter df[mask]. -/
def filterDF (df : DataFrame) (p : Row → Bool) : DataFrame := ⟨df.cols, df.rows.filter p⟩

/-- Stable descending insertion by a rational key. -/
def insertDescBy (key : α → ℚ) (x : α) : List α → List α
  | [] => [x]
  | y :: ys => if key y < key x then x :: y :: ys else y :: insertDescBy key x ys

/-- Stable descending sort by a rational key (ties keep input order, the
keep-first policy of pandas nlargest and the count order of value_counts). -/
def sortDescBy (key : α → ℚ) (l : List α) : List α :=
  l.foldl (fun acc x => insertDescBy key x acc) []

/-- df.nlargest(n, c): rows with a non-null numeric value in column c, sorted
descending on it keeping first on ties, truncated to n; NaN rows are
excluded. -/
def nlargest (df : DataFrame) (n : ℕ) (c : String) : Except String DataFrame := do
  let _ ← requireCols df [c]
  .ok ⟨df.cols,
       ((sortDescBy (fun p => p.1)
           (df.rows.filterMap (fun r => ((cell r c).toQ).map (fun q => (q, r))))).map
         (fun p => p.2)).take n⟩

/-- Distinct values in order of first appearance. -/
def distinctVals (l : List Val) : List Val :=
  l.foldl (fun acc v => if acc.contains v then acc else acc ++ [v]) []

/-- Non-null values of a column. -/
def nonNullVals (l : List Val) : List Val := l.filter (fun v => !v.isna)

/-- Series.nunique: number of distinct non-null values. -/
def nuniqueVals (l : List Val) : ℕ := (distinctVals (nonNullVals l)).length

/-- Occurrences of a value in a list. -/
def countVal (l : List Val) (v : Val) : ℕ := (l.filter (fun x => x == v)).length

/-- Series.value_counts(): distinct non-null values with their counts, sorted
by count descending, first appearance first on ties. -/
def valueCountsList (l : List Val) : List (Val × ℕ) :=
  sortDescBy (fun p => ((p.2 : ℕ) : ℚ))
    ((distinctVals (nonNullVals l)).map (fun v => (v, countVal (nonNullVals l) v)))

/-- value_counts().reset_index() as a two-column frame. -/
def valueCountsDF (df : DataFrame) (c : String) : Except String DataFrame := do
  let vs ← getCol df c
  .ok ⟨[c, "count"],
       (valueCountsList vs).map (fun p => [(c, p.1), ("count", Val.num (p.2 : ℚ))])⟩

/-- Ascending order on group keys, as pandas groupby sorts keys; the pipeline
only groups on homogeneous string or numeric columns. -/
def Val.ltV : Val → Val → Bool
  | Val.num a, Val.num b => decide (a < b)
  | Val.str a, Val.str b => decide (a < b)
  | Val.num _, Val.str _ => true
  | _, _ => false

/-- Insertion into an ascending list of group keys. -/
def insertAscVal (x : Val) : List Val → List Val
  | [] => [x]
  | y :: ys => if Val.ltV x y then x :: y :: ys else y :: insertAscVal x ys

/-- Ascending sort of group keys. -/
def sortVals (l : List Val) : List Val := l.foldl (fun acc v => insertAscVal v acc) []

/-- Group keys of df.groupby(c): distinct non-null values of the column,
sorted ascending (pandas defaults sort true and dropna true). -/
def groupKeys (df : DataFrame) (c : String) : List Val :=
  sortVals (distinctVals (nonNullVals (df.rows.map (fun r => cell r c))))

/-- Rows of the group of key k. -/
def groupRows (df : DataFrame) (c : String) (k : Val) : List Row :=
  df.rows.filter (fun r => cell r c == k)

/-- Mean of the non-null numeric values of a list of cells; NaN when there
are none, as pandas mean of an empty or all-NaN series. -/
def meanCells (l : List Val) : Val :=
  let qs := l.filterMap Val.toQ
  if qs.length = 0 then Val.null else Val.num (qs.sum / (qs.length : ℚ))

/-- df.groupby(c).size().reset_index(name) as a two-column frame. -/
def groupbySizeDF (df : DataFrame) (c resName : String) : Except String DataFrame := do
  let _ ← requireCols df [c]
  .ok ⟨[c, resName],
       (groupKeys df c).map (fun k =>
         [(c, k), (resName, Val.num ((groupRows df c k).length : ℚ))])⟩

/-- df.groupby(c)[v].mean().reset_index() as a two-column frame. -/
def groupbyMeanDF (df : DataFrame) (c v resName : String) : Except String DataFrame := do
  let _ ← requireCols df [c, v]
  .ok ⟨[c, resName],
       (groupKeys df c).map (fun k =>
         [(c, k), (resName, meanCells ((groupRows df c k).map (fun r => cell r v)))])⟩

/-- df.groupby(c)[v].nunique().reset_index(name) as a two-column frame. -/
def groupbyNuniqueDF (df : DataFrame) (c v resName : String) : Except String DataFrame := do
  let _ ← requireCols df [c, v]
  .ok ⟨[c, resName],
       (groupKeys df c).map (fun k =>
         [(c, k), (resName, Val.num ((nuniqueVals ((groupRows df c k).map (fun r => cell r v)) : ℕ) : ℚ))])⟩

/-- Column projection df[[cs]]. -/
def selectCols (df : DataFrame) (cs : List String) : Except String DataFrame := do
  let _ ← requireCols df cs
  .ok ⟨cs, df.rows.map (fun r => cs.map (fun c => (c, cell r c)))⟩

/-- One-cell frame pd.DataFrame([dict with a single key]). -/
def singletonDF (c : String) (v : Val) : DataFrame := ⟨[c], [[(c, v)]]⟩

/-- Mean of one column of a frame. -/
def meanColVal (df : DataFrame) (c : String) : Except String Val := do
  let vs ← getCol df c
  .ok (meanCells vs)

/-- astype(str) on an object cell: None renders as the Python repr None, NaN
and floats would render via repr (product_code cells are JSON strings or
None in this pipeline, so the numeric branch is unreachable). -/
def pyValStr : Val → String
  | Val.null => "None"
  | Val.str s => s
  | Val.num q => toString q

/-- fillna(0) on one cell. -/
def fillZero (v : Val) : Val := if v.isna then Val.num 0 else v

/-- fillna with the string Unknown on one cell. -/
def fillUnknown (v : Val) : Val := if v.isna then Val.str "Unknown" else v

/-- Long column name of the fruits/vegetables/nuts estimate. -/
def fvnCol : String := "fruits-vegetables-nuts-estimate-from-ingredients_100g"

/-- q01: df.groupby(brand).size().reset_index(total). -/
def q01fn (df : DataFrame) : Except String DataFrame :=
  groupbySizeDF df "brand" "total"

/-- q02: df.groupby(brand)[product_code].nunique().reset_index(unique_products). -/
def q02fn (df : DataFrame) : Except String DataFrame :=
  groupbyNuniqueDF df "brand" "product_code" "unique_products"

/-- q03: df[brand].value_counts().head(5).reset_index(). -/
def q03fn (df : DataFrame) : Except String DataFrame := do
  let d ← valueCountsDF df "brand"
  .ok ⟨d.cols, d.rows.take 5⟩

/-- q04: df[df[product_name].isna()]. -/
def q04fn (df : DataFrame) : Except String DataFrame := do
  let _ ← requireCols df ["product_name"]
  .ok (filterDF df (fun r => (cell r "product_name").isna))

/-- q05: one-row frame with df[brand].nunique(). -/
def q05fn (df : DataFrame) : Except String DataFrame := do
  let vs ← getCol df "brand"
  .ok (singletonDF "unique_brands" (Val.num ((nuniqueVals vs : ℕ) : ℚ)))

/-- q06: df[df[product_code].astype(str).str.startswith(3)]. -/
def q06fn (df : DataFrame) : Except String DataFrame := do
  let _ ← requireCols df ["product_code"]
  .ok (filterDF df (fun r => (pyValStr (cell r "product_code")).startsWith "3"))

/-- q07: df.nlargest(10, energy)[[product_code, brand, energy]]. -/
def q07fn (df : DataFrame) : Except String DataFrame := do
  let d ← nlargest df 10 "energy-kcal_value"
  selectCols d ["product_code", "brand", "energy-kcal_value"]

/-- q08: df.groupby(nova-group)[sugars].mean().reset_index(avg_sugar). -/
def q08fn (df : DataFrame) : Except String DataFrame :=
  groupbyMeanDF df "nova-group" "sugars_value" "avg_sugar"

/-- q09: df[df[fat] greater than 20]. -/
def q09fn (df : DataFrame) : Except String DataFrame := do
  let _ ← requireCols df ["fat_value"]
  .ok (filterDF df (fun r => (cell r "fat_value").gtQ 20))

/-- q10: df.groupby(product_code)[carbohydrates].mean().reset_index(). -/
def q10fn (df : DataFrame) : Except String DataFrame :=
  groupbyMeanDF df "product_code" "carbohydrates_value" "carbohydrates_value"

/-- q11: df[df[sodium] greater than 1]. -/
def q11fn (df : DataFrame) : Except String DataFrame := do
  let _ ← requireCols df ["sodium_value"]
  .ok (filterDF df (fun r => (cell r "sodium_value").gtQ 1))

/-- q12: df[df[fvn].fillna(0) greater than 0]. -/
def q12fn (df : DataFrame) : Except String DataFrame := do
  let _ ← requireCols df [fvnCol]
  .ok (filterDF df (fun r => (fillZero (cell r fvnCol)).gtQ 0))

/-- q13: df[df[energy] greater than 500]. -/
def q13fn (df : DataFrame) : Except String DataFrame := do
  let _ ← requireCols df ["energy-kcal_value"]
  .ok (filterDF df (fun r => (cell r "energy-kcal_value").gtQ 500))

/-- q14: df[calorie_category].value_counts().reset_index(). -/
def q14fn (df : DataFrame) : Except String DataFrame :=
  valueCountsDF df "calorie_category"

/-- q15: df[df[sugar_category] equals High]. -/
def q15fn (df : DataFrame) : Except String DataFrame := do
  let _ ← requireCols df ["sugar_category"]
  .ok (filterDF df (fun r => cell r "sugar_category" == Val.str "High"))

/-- q16: one-row frame with the mean ratio of the High calorie rows. -/
def q16fn (df : DataFrame) : Except String DataFrame := do
  let _ ← requireCols df ["calorie_category"]
  let m ← meanColVal (filterDF df (fun r => cell r "calorie_category" == Val.str "High"))
      "sugar_to_carb_ratio"
  .ok (singletonDF "avg_ratio" m)

/-- q17: df[(calorie_category equals High) and (sugar_category equals High)]. -/
def q17fn (df : DataFrame) : Except String DataFrame := do
  let _ ← requireCols df ["calorie_category", "sugar_category"]
  .ok (filterDF df (fun r =>
    cell r "calorie_category" == Val.str "High" && cell r "sugar_category" == Val.str "High"))

/-- q18: df[df[is_ultra_processed] equals Yes]. -/
def q18fn (df : DataFrame) : Except String DataFrame := do
  let _ ← requireCols df ["is_ultra_processed"]
  .ok (filterDF df (fun r => cell r "is_ultra_processed" == Val.str "Yes"))

/-- q19: df[df[sugar_to_carb_ratio] greater than 0.7]. -/
def q19fn (df : DataFrame) : Except String DataFrame := do
  let _ ← requireCols df ["sugar_to_carb_ratio"]
  .ok (filterDF df (fun r => (cell r "sugar_to_carb_ratio").gtQ (7 / 10)))

/-- q20: df.groupby(calorie_category)[ratio].mean().reset_index(). -/
def q20fn (df : DataFrame) : Except String DataFrame :=
  groupbyMeanDF df "calorie_category" "sugar_to_carb_ratio" "sugar_to_carb_ratio"

/-- q21: value_counts of brand over the High calorie rows, head 5. -/
def q21fn (df : DataFrame) : Except String DataFrame := do
  let _ ← requireCols df ["calorie_category"]
  let d ← valueCountsDF (filterDF df (fun r => cell r "calorie_category" == Val.str "High")) "brand"
  .ok ⟨d.cols, d.rows.take 5⟩

/-- q22: df.groupby(calorie_category)[energy].mean().reset_index(). -/
def q22fn (df : DataFrame) : Except String DataFrame :=
  groupbyMeanDF df "calorie_category" "energy-kcal_value" "energy-kcal_value"

/-- q23: value_counts of brand over the ultra-processed rows. -/
def q23fn (df : DataFrame) : Except String DataFrame := do
  let _ ← requireCols df ["is_ultra_processed"]
  valueCountsDF (filterDF df (fun r => cell r "is_ultra_processed" == Val.str "Yes")) "brand"

/-- q24: High sugar and High calorie rows, three columns. -/
def q24fn (df : DataFrame) : Except String DataFrame := do
  let _ ← requireCols df ["sugar_category", "calorie_category"]
  selectCols (filterDF df (fun r =>
      cell r "sugar_category" == Val.str "High" && cell r "calorie_category" == Val.str "High"))
    ["brand", "sugars_value", "energy-kcal_value"]

/-- q25: mean sugars by brand over the ultra-processed rows. -/
def q25fn (df : DataFrame) : Except String DataFrame := do
  let _ ← requireCols df ["is_ultra_processed"]
  groupbyMeanDF (filterDF df (fun r => cell r "is_ultra_processed" == Val.str "Yes"))
    "brand" "sugars_value" "sugars_value"

/-- q26: df.groupby(calorie_category)[fvn].mean().reset_index(). -/
def q26fn (df : DataFrame) : Except String DataFrame :=
  groupbyMeanDF df "calorie_category" fvnCol fvnCol

/-- q27: df.nlargest(5, ratio), six columns. -/
def q27fn (df : DataFrame) : Except String DataFrame := do
  let d ← nlargest df 5 "sugar_to_carb_ratio"
  selectCols d ["product_code", "brand", "product_name", "sugar_to_carb_ratio",
                "calorie_category", "sugar_category"]

/-- The 27 analytics queries of step_analytics (src/run_all.py lines 192 to
218), in source order with their output file names. -/
def queries27 : List (String × (DataFrame → Except String DataFrame)) :=
  [("q01_products_per_brand", q01fn),
   ("q02_unique_products_per_brand", q02fn),
   ("q03_top5_brands_by_count", q03fn),
   ("q04_missing_product_name", q04fn),
   ("q05_unique_brands_count", q05fn),
   ("q06_codes_starting_3", q06fn),
   ("q07_top10_energy_kcal", q07fn),
   ("q08_avg_sugar_by_nova", q08fn),
   ("q09_fat_gt20", q09fn),
   ("q10_avg_carbs_per_product", q10fn),
   ("q11_sodium_gt1g", q11fn),
   ("q12_fvn_nonzero", q12fn),
   ("q13_energy_gt500", q13fn),
   ("q14_count_per_calorie_category", q14fn),
   ("q15_high_sugar", q15fn),
   ("q16_avg_ratio_high_calorie", q16fn),
   ("q17_high_cal_high_sugar", q17fn),
   ("q18_ultra_processed", q18fn),
   ("q19_ratio_gt0_7", q19fn),
   ("q20_avg_ratio_by_calorie_category", q20fn),
   ("q21_top5_brands_high_cal", q21fn),
   ("q22_avg_kcal_by_calorie_category", q22fn),
   ("q23_ultra_count_per_brand", q23fn),
   ("q24_high_sugar_high_cal_brand", q24fn),
   ("q25_avg_sugar_ultra_by_brand", q25fn),
   ("q26_avg_fvn_by_calorie_category", q26fn),
   ("q27_top5_by_ratio", q27fn)]

/-- Run the queries in source order over the shared engineered frame.  Each
output is written to its CSV as soon as it is computed; an exception raised
by one query propagates, as the source has no per-query exception handling,
so no later query runs. -/
def runQueries : List (String × (DataFrame → Except String DataFrame)) → DataFrame →
    Except String (List (String × DataFrame))
  | [], _ => .ok []
  | (n, f) :: qs, df => do
    let t ← f df
    let rest ← runQueries qs df
    .ok ((n, t) :: rest)

/-- The two in-place writes step_analytics performs on the shared engineered
frame before any query runs (src/run_all.py lines 188 to 189): fill null
brands with Unknown, then add a sugartocarbratio column copying
sugar_to_carb_ratio. -/
def analyticsPrep (df : DataFrame) : Except String DataFrame := do
  let bs ← getCol df "brand"
  let df1 := setCol df "brand" (bs.map fillUnknown)
  let rs ← getCol df1 "sugar_to_carb_ratio"
  .ok (setCol df1 "sugartocarbratio" rs)

/-- Embedding of step_analytics (src/run_all.py lines 187 to 219): mutate the
shared frame, then run the 27 queries over it in order.  Returns the final
state of the shared frame together with the computed outputs. -/
def step_analytics (df : DataFrame) : Except String (DataFrame × List (String × DataFrame)) := do
  let d ← analyticsPrep df
  let outs ← runQueries queries27 d
  .ok (d, outs)

/-- Error discriminator for the embedded exception monad. -/
def isErrE : Except String α → Bool
  | .error _ => true
  | .ok _ => false

/-- One raw product record, with the fields src/run_all.py reads: code,
product_name, brands and the nutriments mapping.  JSON values reaching
to_float are kept in their string form (str() of a JSON number is its
decimal rendering); an absent key or JSON null is `none`. -/
structure RawRecord where
  code : Option String
  product_name : Option String
  brands : Option String
  nutriments : List (String × Option String)
deriving DecidableEq, Repr

/-- Python truthiness fallback x or y on optional strings: None and the
empty string are falsy. -/
def pyOr (a b : Option String) : Option String :=
  match a with
  | none => b
  | some s => if s = "" then b else some s

/-- nutr.get(k) on the nutriments mapping. -/
def nutGet (p : RawRecord) (k : String) : Option String :=
  (List.lookup k p.nutriments).getD none

/-- Identity cell of an optional JSON string. -/
def ofStr? : Option String → Val
  | some s => Val.str s
  | none => Val.null

/-- product_code cell of a record. -/
def codeVal (p : RawRecord) : Val := ofStr? p.code

/-- p.get(product_name) or Unknown: the falsy values None and the empty
string become Unknown. -/
def nameOf (p : RawRecord) : String :=
  match p.product_name with
  | none => "Unknown"
  | some s => if s = "" then "Unknown" else s

/-- Identity dict row appended to prows (src/run_all.py line 102). -/
def prow (p : RawRecord) : Row :=
  [("product_code", codeVal p),
   ("product_name", Val.str (nameOf p)),
   ("brand", Val.str (normalize_brand p.brands))]

/-- Nutrient dict row appended to nrows (src/run_all.py lines 103 to 119). -/
def nrow (p : RawRecord) : Row :=
  [("product_code", codeVal p),
   ("energy-kcal_value", ofQ? (to_float (nutGet p "energy-kcal_100g"))),
   ("energy-kj_value", ofQ? (to_float (nutGet p "energy-kj_100g"))),
   ("carbohydrates_value", ofQ? (to_float (nutGet p "carbohydrates_100g"))),
   ("sugars_value", ofQ? (to_float (nutGet p "sugars_100g"))),
   ("fat_value", ofQ? (to_float (nutGet p "fat_100g"))),
   ("saturated-fat_value", ofQ? (to_float (nutGet p "saturated-fat_100g"))),
   ("proteins_value", ofQ? (to_float (nutGet p "proteins_100g"))),
   ("fiber_value", ofQ? (to_float (nutGet p "fiber_100g"))),
   ("salt_value", ofQ? (to_float (nutGet p "salt_100g"))),
   ("sodium_value", ofQ? (to_float (nutGet p "sodium_100g"))),
   (fvnCol, ofQ? (to_float (nutGet p fvnCol))),
   ("nutrition-score-fr", ofQ? (to_float (pyOr (nutGet p "nutrition-score-fr_100g") (nutGet p "nutrition-score-fr")))),
   ("nova-group", ofQ? (to_float (pyOr (nutGet p "nova-group_100g") (nutGet p "nova-group"))))]

/-- Derived-placeholder dict row appended to drows (src/run_all.py line 120). -/
def drow (p : RawRecord) : Row := [("product_code", codeVal p)]

/-- Embedding of step_clean_transform (src/run_all.py lines 94 to 127) on the
in-memory record list: build the three dict-row tables and deduplicate each
by product_code.  On an empty record list the first drop_duplicates raises a
KeyError, because the empty frame has no product_code column. -/
def clean_transform (records : List RawRecord) :
    Except String (DataFrame × DataFrame × DataFrame) := do
  let dfp ← dropDuplicates (mkFrame (records.map prow)) "product_code"
  let dfn ← dropDuplicates (mkFrame (records.map nrow)) "product_code"
  let dfd ← dropDuplicates (mkFrame (records.map drow)) "product_code"
  .ok (dfp, dfn, dfd)

/-- pd.to_numeric with errors coerce on one cell (safe_num,
src/run_all.py line 36); in the pipeline the four columns it is applied to
already hold floats or NaN, so it acts as the identity there. -/
def toNumericVal : Val → Val
  | Val.num q => Val.num q
  | Val.null => Val.null
  | Val.str s => ofQ? (pyFloat (pyStrip s.data))

/-- In-place numeric coercion of one column: df[c] = safe_num(df[c]). -/
def mapColF (df : DataFrame) (c : String) (f : Val → Val) : Except String DataFrame := do
  let vs ← getCol df c
  .ok (setCol df c (vs.map f))

/-- Embedding of step_feature_engineer (src/run_all.py lines 132 to 164):
left-join the nutrient table onto the identity table on product_code, coerce
the four numeric feature inputs, then add the four derived columns in source
order. -/
def feature_engineer (dfp dfn : DataFrame) : Except String DataFrame := do
  let df ← mergeLeft dfp dfn "product_code"
  let df ← mapColF df "sugars_value" toNumericVal
  let df ← mapColF df "carbohydrates_value" toNumericVal
  let df ← mapColF df "energy-kcal_value" toNumericVal
  let df ← mapColF df "nova-group" toNumericVal
  let ss ← getCol df "sugars_value"
  let cs ← getCol df "carbohydrates_value"
  let df := setCol df "sugar_to_carb_ratio"
    (List.zipWith (fun s c => ofQ? (ratioOf s.toQ c.toQ)) ss cs)
  let es ← getCol df "energy-kcal_value"
  let df := setCol df "calorie_category" (es.map (fun v => Val.str (cat_cal v.toQ)))
  let s2 ← getCol df "sugars_value"
  let df := setCol df "sugar_category" (s2.map (fun v => Val.str (cat_sug v.toQ)))
  let ns ← getCol df "nova-group"
  let df := setCol df "is_ultra_processed" (ns.map (fun v => Val.str (ultraOf v.toQ)))
  .ok df

/-- The engineered frame as mutated by step_analytics before any query reads
it: the full data path from raw records to the shared table the 27 queries
run over. -/
def analyticsInput (records : List RawRecord) : Except String DataFrame := do
  let r ← clean_transform records
  let df ← feature_engineer r.1 r.2.1
  analyticsPrep df

/-- The full in-memory pipeline from raw records to the 27 query outputs
(fetch, EDA plots and file writes are outside the modelled core). -/
def pipelineAll (records : List RawRecord) :
    Except String (DataFrame × List (String × DataFrame)) := do
  let r ← clean_transform records
  let df ← feature_engineer r.1 r.2.1
  step_analytics df

/-- Decimal digit character of a digit value. -/
def digitChar (d : ℕ) : Char := Char.ofNat (48 + d)

/-- Most-significant-first digit values of a natural number, left-padded with
zeros to at least k + 1 digits. -/
def padDigits (k a : ℕ) : List ℕ :=
  List.replicate (k + 1 - ((Nat.digits 10 a).reverse).length) 0 ++ (Nat.digits 10 a).reverse

/-- Digit characters of the value a / 10 ^ k: the padded digits of a with a
decimal point before the last k of them, plain digits when k is zero. -/
def renderBody (k a : ℕ) : List Char :=
  if k = 0 then (padDigits k a).map digitChar
  else
    ((padDigits k a).take ((padDigits k a).length - k)).map digitChar ++
      ('.' : Char) :: ((padDigits k a).drop ((padDigits k a).length - k)).map digitChar

/-- Decimal rendering of the value n / 10 ^ k, the string form in which
Python prints the float. -/
def renderParts (n : ℤ) (k : ℕ) : List Char :=
  (if n < 0 then [('-' : Char)] else []) ++ renderBody k n.natAbs

/-- String rendering of the value n / 10 ^ k. -/
def renderDec (n : ℤ) (k : ℕ) : String := String.mk (renderParts n k)

/-- Brand normalization exactly as claim C9 words it: the first comma
segment of the raw string, whitespace-trimmed and title-cased, with the
literal Unknown only when the raw value is empty or absent. -/
def normalize_brand_claimed (b : Option String) : String :=
  match b with
  | none => "Unknown"
  | some s =>
    if s = "" then "Unknown" else String.mk (pyTitle (pyStrip (firstCommaSeg s.data)))

/-- Brand normalization as amended: additionally, when the trimmed first
comma segment is empty the result is the literal Unknown. -/
def normalize_brand_amended (b : Option String) : String :=
  match b with
  | none => "Unknown"
  | some s =>
    if s = "" then "Unknown"
    else
      if pyStrip (firstCommaSeg s.data) = [] then "Unknown"
      else String.mk (pyTitle (pyStrip (firstCommaSeg s.data)))

/-- Column list of the engineered snapshot produced by the Feature Deriver. -/
def engCols : List String :=
  ["product_code", "product_name", "brand", "energy-kcal_value", "energy-kj_value",
   "carbohydrates_value", "sugars_value", "fat_value", "saturated-fat_value", "proteins_value",
   "fiber_value", "salt_value", "sodium_value", fvnCol, "nutrition-score-fr",
   "nova-group", "sugar_to_carb_ratio", "calorie_category", "sugar_category", "is_ultra_processed"]

/-- An engineered table whose fat_value column is absent (the upstream-schema
drift scenario of claim C1): query q09 is the only query that touches
fat_value. -/
def dfNoFat : DataFrame := ⟨engCols.filter (fun c => c ≠ "fat_value"), []⟩

/-- The shared frame after the two writes of step_analytics on `dfNoFat`. -/
def dNoFat : DataFrame := ⟨dfNoFat.cols ++ ["sugartocarbratio"], []⟩

/-- Number of queries that fail individually on the shared frame derived
from a given engineered table. -/
def countFailing (df : DataFrame) : ℕ :=
  match analyticsPrep df with
  | .ok d =>
    (queries27.filter
      (fun p : String × (DataFrame → Except String DataFrame) => isErrE (p.2 d))).length
  | .error _ => 0

/-- An engineered table with the full schema of the Feature Deriver. -/
def dfFull : DataFrame := ⟨engCols, []⟩

/-- The shared frame after the two writes of step_analytics on `dfFull`: one
column more than the Feature Deriver produced. -/
def dFull : DataFrame := ⟨engCols ++ ["sugartocarbratio"], []⟩

/-- The duplicate-product scenario of the specification: two raw records
sharing product_code 000123, the first with brand Lindt, Inc. -/
def rec4a : RawRecord := ⟨some "000123", some "Choco Bar", some "Lindt, Inc", []⟩

/-- Second record of the duplicate-product scenario. -/
def rec4b : RawRecord := ⟨some "000123", some "Other Bar", some "Other", []⟩

/-- Record list of the duplicate-product scenario. -/
def recs4 : List RawRecord := [rec4a, rec4b]

/-- Identity table cleaned from `recs4`. -/
def dfp4 : DataFrame :=
  ⟨["product_code", "product_name", "brand"],
   [[("product_code", Val.str "000123"), ("product_name", Val.str "Choco Bar"),
     ("brand", Val.str "Lindt")]]⟩

/-- Nutrient column names in source order. -/
def nutNames : List String :=
  ["energy-kcal_value", "energy-kj_value", "carbohydrates_value", "sugars_value", "fat_value",
   "saturated-fat_value", "proteins_value", "fiber_value", "salt_value", "sodium_value",
   fvnCol, "nutrition-score-fr", "nova-group"]

/-- Nutrient table cleaned from `recs4`. -/
def dfn4 : DataFrame :=
  ⟨"product_code" :: nutNames,
   [("product_code", Val.str "000123") :: nutNames.map (fun c => (c, Val.null))]⟩

/-- Derived-placeholder table cleaned from `recs4`. -/
def dfd4 : DataFrame :=
  ⟨["product_code"], [[("product_code", Val.str "000123")]]⟩

/-- Merged table of the duplicate-product scenario. -/
def merged4 : DataFrame :=
  ⟨["product_code", "product_name", "brand"] ++ nutNames,
   [[("product_code", Val.str "000123"), ("product_name", Val.str "Choco Bar"),
     ("brand", Val.str "Lindt")] ++ nutNames.map (fun c => (c, Val.null))]⟩

/-- A one-record input with no product name and no brand. -/
def recs10 : List RawRecord := [⟨some "1", none, none, []⟩]

/-- The shared analytics frame computed from `recs10`. -/
def d10 : DataFrame :=
  ⟨engCols ++ ["sugartocarbratio"],
   [[("product_code", Val.str "1"), ("product_name", Val.str "Unknown"),
     ("brand", Val.str "Unknown")] ++
    (nutNames.map (fun c => (c, Val.null))) ++
    [("sugar_to_carb_ratio", Val.null), ("calorie_category", Val.str "Unknown"),
     ("sugar_category", Val.str "Unknown"), ("is_ultra_processed", Val.str "Unknown"),
     ("sugartocarbratio", Val.null)]]⟩

/-- All cells of one column, in row order (total version of getCol, used
only to state frame effects). -/
def colVals (df : DataFrame) (c : String) : List Val :=
  df.rows.map (fun r => cell r c)

/-- C5: for every row, sugar_to_carb_ratio is the quotient of sugars by
carbohydrates clamped to the unit interval when carbohydrates is positive and
sugars is non-null, and is null otherwise (carbohydrates null or nonpositive,
or sugars null); consequently every non-null ratio lies in the closed unit
interval. -/
theorem c5_ratio_clamped (s c : Option ℚ) :
    (∀ sv cv, s = some sv → c = some cv → 0 < cv →
      ratioOf s c = some (clip01 (sv / cv))) ∧
    ((s = none ∨ c = none ∨ ∃ cv, c = some cv ∧ cv ≤ 0) → ratioOf s c = none) ∧
    (∀ q, ratioOf s c = some q → 0 ≤ q ∧ q ≤ 1) := by
  refine ⟨?_, ?_, ?_⟩
  · intro sv cv hs hc hpos
    subst hs; subst hc
    simp [ratioOf, hpos]
  · rintro (h | h | ⟨cv, hc, hle⟩)
    · subst h; cases c <;> rfl
    · subst h; cases s <;> rfl
    · subst hc
      cases s with
      | none => rfl
      | some sv => simp [ratioOf, not_lt.mpr hle]
  · intro q hq
    cases s with
    | none => simp [ratioOf] at hq
    | some sv =>
      cases c with
      | none => simp [ratioOf] at hq
      | some cv =>
        by_cases hpos : 0 < cv
        · simp [ratioOf, hpos] at hq
          subst hq
          constructor
          · exact le_min (by norm_num) (le_max_left 0 _)
          · exact min_le_left 1 _
        · simp [ratioOf, hpos] at hq

/-- Concrete instance of C5: sugars 20 over carbohydrates 25 gives the ratio
four fifths, and a null sugars value gives a null ratio. -/
theorem c5_witness :
    ratioOf (some 20) (some 25) = some (4 / 5) ∧ ratioOf none (some 25) = none := by
  constructor
  · have h := (c5_ratio_clamped (some 20) (some 25)).1 20 25 rfl rfl (by norm_num)
    rw [h]
    norm_num [clip01]
  · exact (c5_ratio_clamped none (some 25)).2.1 (Or.inl rfl)

/-- C6: calorie_category maps every energy cell to exactly one of the four
buckets, with 150 and 300 as inclusive upper bounds of Low and Moderate and
Unknown exactly on null. -/
theorem c6_calorie_buckets (e : Option ℚ) :
    (cat_cal e = "Unknown" ↔ e = none) ∧
    (cat_cal e = "Low" ↔ ∃ v, e = some v ∧ v ≤ 150) ∧
    (cat_cal e = "Moderate" ↔ ∃ v, e = some v ∧ 150 < v ∧ v ≤ 300) ∧
    (cat_cal e = "High" ↔ ∃ v, e = some v ∧ 300 < v) := by
  cases e with
  | none => refine ⟨by simp [cat_cal], by simp [cat_cal], by simp [cat_cal], by simp [cat_cal]⟩
  | some v =>
    by_cases h1 : v ≤ 150
    · refine ⟨by simp [cat_cal, h1], by simp [cat_cal, h1], ?_, ?_⟩
      · simp only [cat_cal, if_pos h1]
        constructor
        · intro h; exact absurd h (by decide)
        · rintro ⟨w, hw, hlt, _⟩
          cases hw; exact absurd h1 (not_le.mpr hlt)
      · simp only [cat_cal, if_pos h1]
        constructor
        · intro h; exact absurd h (by decide)
        · rintro ⟨w, hw, hlt⟩
          cases hw; exact absurd h1 (not_le.mpr (by linarith))
    · by_cases h2 : v ≤ 300
      · refine ⟨by simp [cat_cal, h1, h2], ?_, ?_, ?_⟩
        · simp only [cat_cal, if_neg h1, if_pos h2]
          constructor
          · intro h; exact absurd h (by decide)
          · rintro ⟨w, hw, hle⟩
            cases hw; exact absurd hle h1
        · constructor
          · intro _
            exact ⟨v, rfl, not_le.mp h1, h2⟩
          · intro _
            show (if v ≤ 150 then "Low" else if v ≤ 300 then "Moderate" else "High") = "Moderate"
            rw [if_neg h1, if_pos h2]
        · simp only [cat_cal, if_neg h1, if_pos h2]
          constructor
          · intro h; exact absurd h (by decide)
          · rintro ⟨w, hw, hlt⟩
            cases hw; exact absurd h2 (not_le.mpr hlt)
      · refine ⟨by simp [cat_cal, h1, h2], ?_, ?_, ?_⟩
        · simp only [cat_cal, if_neg h1, if_neg h2]
          constructor
          · intro h; exact absurd h (by decide)
          · rintro ⟨w, hw, hle⟩
            cases hw; exact absurd hle h1
        · simp only [cat_cal, if_neg h1, if_neg h2]
          constructor
          · intro h; exact absurd h (by decide)
          · rintro ⟨w, hw, _, hle⟩
            cases hw; exact absurd hle h2
        · constructor
          · intro _
            exact ⟨v, rfl, not_le.mp h2⟩
          · intro _
            show (if v ≤ 150 then "Low" else if v ≤ 300 then "Moderate" else "High") = "High"
            rw [if_neg h1, if_neg h2]

/-- Concrete instance of C6: energy 200 is Moderate. -/
theorem c6_witness : cat_cal (some 200) = "Moderate" :=
  (c6_calorie_buckets (some 200)).2.2.1.mpr ⟨200, rfl, by norm_num, by norm_num⟩

/-- C7: to_float parses the first whitespace-delimited token of the bound
value as a float (the string 120 kcal parses to 120.0), yields null when the
key is absent, the string is empty, or the first token is not numeric, and
is total, never raising. -/
theorem c7_to_float_first_token :
    to_float (some "120 kcal") = some 120 ∧
    to_float none = none ∧
    to_float (some "") = none ∧
    to_float (some "kcal 120") = none ∧
    ∀ x : Option String, to_float x = none ∨ ∃ q, to_float x = some q := by
  have h0 : to_float (some "120 kcal") = (pyFloatParts ['1', '2', '0']).map partsToQ := rfl
  have h1 : pyFloatParts ['1', '2', '0'] = some (120, 0) := by decide
  refine ⟨?_, rfl, by decide, by decide, ?_⟩
  · rw [h0, h1]
    show some (partsToQ (120, 0)) = some 120
    norm_num [partsToQ]
  intro x
  cases h : to_float x with
  | none => exact Or.inl rfl
  | some q => exact Or.inr ⟨q, rfl⟩

/-- Counterexample to C9 as stated: the raw brand value consisting of one
space is neither empty nor absent, its trimmed title-cased first comma
segment is the empty string, yet normalize_brand returns Unknown. -/
theorem c9_counterexample :
    normalize_brand (some " ") = "Unknown" ∧
    normalize_brand_claimed (some " ") = "" ∧
    decide (normalize_brand (some " ") = normalize_brand_claimed (some " ")) = false := by
  refine ⟨by decide, by decide, by decide⟩

/-- C9 as amended: normalize_brand returns the trimmed title-cased first
comma segment, except that an absent raw value, an empty raw value, or a
first segment that trims to the empty string all give the literal Unknown;
Lindt, Inc normalizes to Lindt. -/
theorem c9_normalize_brand :
    (∀ b, normalize_brand b = normalize_brand_amended b) ∧
    normalize_brand (some "Lindt, Inc") = "Lindt" ∧
    normalize_brand (some "") = "Unknown" ∧
    normalize_brand none = "Unknown" := by
  refine ⟨?_, by decide, by decide, rfl⟩
  intro b
  cases b with
  | none => rfl
  | some s => rfl

theorem digit?_digitChar {d : ℕ} (h : d < 10) : digit? (digitChar d) = some d := by
  interval_cases d <;> decide

theorem digitChar_ne_dash {d : ℕ} (h : d < 10) : digitChar d ≠ ('-' : Char) := by
  interval_cases d <;> decide

theorem digitChar_ne_plus {d : ℕ} (h : d < 10) : digitChar d ≠ ('+' : Char) := by
  interval_cases d <;> decide

theorem digitChar_not_ws {d : ℕ} (h : d < 10) : (digitChar d).isWhitespace = false := by
  interval_cases d <;> decide

theorem spanDigits_map (ds : List ℕ) (hds : ∀ d ∈ ds, d < 10) (r : List Char)
    (hr : ∀ c, r.head? = some c → digit? c = none) :
    spanDigits (ds.map digitChar ++ r) = (ds, r) := by
  induction ds with
  | nil =>
    cases r with
    | nil => rfl
    | cons c cs =>
      have hc := hr c rfl
      simp [spanDigits, hc]
  | cons d ds ih =>
    have hd : d < 10 := hds d (List.mem_cons_self _ _)
    have ih2 := ih (fun x hx => hds x (List.mem_cons_of_mem _ hx))
    simp [spanDigits, digit?_digitChar hd, ih2]

theorem digitsVal_foldl (ds : List ℕ) (a : ℕ) :
    ds.foldl (fun x d => 10 * x + d) a = a * 10 ^ ds.length + Nat.ofDigits 10 ds.reverse := by
  induction ds generalizing a with
  | nil => simp [Nat.ofDigits]
  | cons d ds ih =>
    simp only [List.foldl_cons, List.reverse_cons, List.length_cons]
    rw [ih, Nat.ofDigits_append]
    simp [Nat.ofDigits_singleton]
    ring

theorem digitsVal_rev_digits (a : ℕ) : digitsVal ((Nat.digits 10 a).reverse) = a := by
  unfold digitsVal
  rw [digitsVal_foldl]
  simp [Nat.ofDigits_digits]

theorem digitsVal_pad_zero (z : ℕ) (ds : List ℕ) :
    digitsVal (List.replicate z 0 ++ ds) = digitsVal ds := by
  induction z with
  | zero => rfl
  | succ z ih =>
    rw [List.replicate_succ, List.cons_append]
    exact ih

theorem padDigits_val (k a : ℕ) : digitsVal (padDigits k a) = a := by
  unfold padDigits
  rw [digitsVal_pad_zero, digitsVal_rev_digits]

theorem padDigits_lt (k a : ℕ) : ∀ d ∈ padDigits k a, d < 10 := by
  intro d hd
  unfold padDigits at hd
  rcases List.mem_append.mp hd with h | h
  · rw [List.eq_of_mem_replicate h]
    norm_num
  · exact Nat.digits_lt_base (by norm_num) (List.mem_reverse.mp h)

theorem padDigits_len (k a : ℕ) : k + 1 ≤ (padDigits k a).length := by
  unfold padDigits
  rw [List.length_append, List.length_replicate]
  omega

theorem padDigits_ne_nil (k a : ℕ) : padDigits k a ≠ [] := by
  intro h
  have := padDigits_len k a
  rw [h] at this
  simp at this

theorem renderBody_decomp (k a : ℕ) :
    ∃ l r, renderBody k a = l.map digitChar ++ r ∧ l ≠ [] ∧ (∀ d ∈ l, d < 10) ∧
      (∀ c, r.head? = some c → digit? c = none) := by
  by_cases hk : k = 0
  · subst hk
    refine ⟨padDigits 0 a, [], ?_, padDigits_ne_nil 0 a, padDigits_lt 0 a, ?_⟩
    · simp [renderBody]
    · intro c hc
      cases hc
  · refine ⟨(padDigits k a).take ((padDigits k a).length - k),
      ('.' : Char) :: ((padDigits k a).drop ((padDigits k a).length - k)).map digitChar,
      ?_, ?_, ?_, ?_⟩
    · simp [renderBody, hk]
    · intro h
      have hlen := padDigits_len k a
      have : ((padDigits k a).take ((padDigits k a).length - k)).length = 0 := by
        rw [h]
        rfl
      rw [List.length_take] at this
      omega
    · intro d hd
      exact padDigits_lt k a d (List.take_subset _ _ hd)
    · intro c hc
      cases hc
      decide

theorem readSign_renderBody (k a : ℕ) : readSign (renderBody k a) = (1, renderBody k a) := by
  obtain ⟨l, r, hbody, hne, hlt, _⟩ := renderBody_decomp k a
  cases l with
  | nil => exact absurd rfl hne
  | cons d ds =>
    have hd : d < 10 := hlt d (List.mem_cons_self _ _)
    rw [hbody]
    simp [readSign, digitChar_ne_dash hd, digitChar_ne_plus hd]

theorem parse_with_sign (k a : ℕ) (sgn : ℤ) (cs : List Char)
    (hrs : readSign cs = (sgn, renderBody k a)) :
    pyFloatParts cs = some (sgn * (a : ℤ), k) := by
  by_cases hk : k = 0
  · subst hk
    have hbody : renderBody 0 a = (padDigits 0 a).map digitChar ++ [] := by
      simp [renderBody]
    have hspan : spanDigits (renderBody 0 a) = (padDigits 0 a, []) := by
      rw [hbody]
      exact spanDigits_map _ (padDigits_lt 0 a) [] (fun c hc => by cases hc)
    simp only [pyFloatParts, hrs, hspan]
    rw [if_neg (padDigits_ne_nil 0 a)]
    show some (sgn * (digitsVal (padDigits 0 a) : ℤ), 0) = some (sgn * (a : ℤ), 0)
    rw [padDigits_val]
  · have hlen := padDigits_len k a
    have hspan : spanDigits (renderBody k a) =
        ((padDigits k a).take ((padDigits k a).length - k),
         ('.' : Char) :: ((padDigits k a).drop ((padDigits k a).length - k)).map digitChar) := by
      rw [show renderBody k a =
          ((padDigits k a).take ((padDigits k a).length - k)).map digitChar ++
            (('.' : Char) :: ((padDigits k a).drop ((padDigits k a).length - k)).map digitChar) by
        simp [renderBody, hk]]
      exact spanDigits_map _ (fun d hd => padDigits_lt k a d (List.take_subset _ _ hd)) _
        (fun c hc => by cases hc; decide)
    have hspan2 : spanDigits (((padDigits k a).drop ((padDigits k a).length - k)).map digitChar) =
        ((padDigits k a).drop ((padDigits k a).length - k), []) := by
      rw [show ((padDigits k a).drop ((padDigits k a).length - k)).map digitChar =
          ((padDigits k a).drop ((padDigits k a).length - k)).map digitChar ++ [] by simp]
      exact spanDigits_map _ (fun d hd => padDigits_lt k a d (List.drop_subset _ _ hd)) []
        (fun c hc => by cases hc)
    have htake_ne : (padDigits k a).take ((padDigits k a).length - k) ≠ [] := by
      intro h
      have : ((padDigits k a).take ((padDigits k a).length - k)).length = 0 := by
        rw [h]
        rfl
      rw [List.length_take] at this
      omega
    simp only [pyFloatParts, hrs, hspan, hspan2]
    rw [if_neg (by
      intro hcon
      exact htake_ne hcon.1)]
    show some (sgn * (digitsVal ((padDigits k a).take ((padDigits k a).length - k) ++
        (padDigits k a).drop ((padDigits k a).length - k)) : ℤ),
        ((padDigits k a).drop ((padDigits k a).length - k)).length) = _
    rw [List.take_append_drop, padDigits_val, List.length_drop]
    simp only [Prod.mk.injEq, Option.some.injEq]
    exact ⟨trivial, by omega⟩

theorem pyFloatParts_render (n : ℤ) (k : ℕ) :
    pyFloatParts (renderParts n k) = some (n, k) := by
  by_cases hn : n < 0
  · have hr : renderParts n k = ('-' : Char) :: renderBody k n.natAbs := by
      simp [renderParts, hn]
    have hrs : readSign (renderParts n k) = (-1, renderBody k n.natAbs) := by
      rw [hr]
      simp [readSign]
    rw [parse_with_sign k n.natAbs (-1) _ hrs]
    simp only [Prod.mk.injEq, Option.some.injEq]
    exact ⟨by omega, trivial⟩
  · have hr : renderParts n k = renderBody k n.natAbs := by
      simp [renderParts, hn]
    have hrs : readSign (renderParts n k) = (1, renderBody k n.natAbs) := by
      rw [hr]
      exact readSign_renderBody k n.natAbs
    rw [parse_with_sign k n.natAbs 1 _ hrs]
    simp only [Prod.mk.injEq, Option.some.injEq]
    exact ⟨by omega, trivial⟩

theorem splitWsAux_nows (l : List Char) (acc : List Char)
    (h : ∀ c ∈ l, c.isWhitespace = false) :
    splitWsAux l acc = if acc.reverse ++ l = [] then [] else [acc.reverse ++ l] := by
  induction l generalizing acc with
  | nil =>
    simp only [splitWsAux, List.append_nil]
    by_cases ha : acc = []
    · subst ha
      simp
    · rw [if_neg ha, if_neg (by simp [ha])]
  | cons c cs ih =>
    have hc := h c (List.mem_cons_self _ _)
    simp only [splitWsAux, hc, Bool.false_eq_true, if_false]
    rw [ih (c :: acc) (fun x hx => h x (List.mem_cons_of_mem _ hx))]
    have hleft : (c :: acc).reverse ++ cs = acc.reverse ++ c :: cs := by
      simp
    rw [hleft]

theorem renderParts_nows (n : ℤ) (k : ℕ) :
    ∀ c ∈ renderParts n k, c.isWhitespace = false := by
  intro c hc
  unfold renderParts at hc
  rcases List.mem_append.mp hc with h | h
  · by_cases hn : n < 0
    · rw [if_pos hn] at h
      cases h with
      | head => decide
      | tail _ hmem => cases hmem
    · rw [if_neg hn] at h
      cases h
  · unfold renderBody at h
    by_cases hk : k = 0
    · rw [if_pos hk] at h
      obtain ⟨d, hd, hcd⟩ := List.mem_map.mp h
      rw [← hcd]
      exact digitChar_not_ws (padDigits_lt k n.natAbs d (hk ▸ hd))
    · rw [if_neg hk] at h
      rcases List.mem_append.mp h with h2 | h2
      · obtain ⟨d, hd, hcd⟩ := List.mem_map.mp h2
        rw [← hcd]
        exact digitChar_not_ws (padDigits_lt k n.natAbs d (List.take_subset _ _ hd))
      · cases h2 with
        | head => decide
        | tail _ hmem =>
          obtain ⟨d, hd, hcd⟩ := List.mem_map.mp hmem
          rw [← hcd]
          exact digitChar_not_ws (padDigits_lt k n.natAbs d (List.drop_subset _ _ hd))

theorem renderParts_ne_nil (n : ℤ) (k : ℕ) : renderParts n k ≠ [] := by
  unfold renderParts
  obtain ⟨l, r, hbody, hne, _, _⟩ := renderBody_decomp k n.natAbs
  rw [hbody]
  cases l with
  | nil => exact absurd rfl hne
  | cons d ds =>
    simp

theorem pySplit_renderDec (n : ℤ) (k : ℕ) : pySplit (renderDec n k) = [renderParts n k] := by
  unfold pySplit renderDec
  rw [show (String.mk (renderParts n k)).data = renderParts n k from rfl]
  rw [splitWsAux_nows _ [] (renderParts_nows n k)]
  simp [renderParts_ne_nil n k]

theorem to_float_renderDec (n : ℤ) (k : ℕ) :
    to_float (some (renderDec n k)) = some ((n : ℚ) / (10 : ℚ) ^ k) := by
  simp only [to_float, pySplit_renderDec, pyFloat, pyFloatParts_render, Option.map_some]
  rfl

/-- C8: parsing is idempotent on successes.  Every successfully parsed value
is a decimal rational n / 10 ^ k, and parsing the decimal string rendering of
that value returns the value itself; malformed input yields null and the
parser is total, never raising. -/
theorem c8_roundtrip (s : String) (v : ℚ) (h : to_float (some s) = some v) :
    ∃ (n : ℤ) (k : ℕ), v = (n : ℚ) / (10 : ℚ) ^ k ∧
      to_float (some (renderDec n k)) = some v := by
  cases hsp : pySplit s with
  | nil =>
    simp only [to_float, hsp] at h
    cases h
  | cons t rest =>
    simp only [to_float, hsp, pyFloat] at h
    cases hp : pyFloatParts t with
    | none =>
      rw [hp] at h
      cases h
    | some p =>
      obtain ⟨n, k⟩ := p
      rw [hp] at h
      have hv : partsToQ (n, k) = v := by
        injection h
      refine ⟨n, k, ?_, ?_⟩
      · rw [← hv]
        rfl
      · rw [to_float_renderDec, ← hv]
        rfl

/-- Concrete instance of C8: the string 1.5 parses to three halves, and the
round trip through the rendered form returns the same value. -/
theorem c8_witness :
    to_float (some "1.5") = some (3 / 2) ∧
    ∃ (n : ℤ) (k : ℕ), (3 / 2 : ℚ) = (n : ℚ) / (10 : ℚ) ^ k ∧
      to_float (some (renderDec n k)) = some (3 / 2) := by
  have h : to_float (some "1.5") = some (3 / 2) := by
    have h0 : to_float (some "1.5") = (pyFloatParts ['1', '.', '5']).map partsToQ := rfl
    have h1 : pyFloatParts ['1', '.', '5'] = some (15, 1) := by decide
    rw [h0, h1]
    show some (partsToQ (15, 1)) = some (3 / 2)
    norm_num [partsToQ]
  exact ⟨h, c8_roundtrip "1.5" (3 / 2) h⟩

theorem bind_ok_ex {α β : Type} {e : Except String α} {f : α → Except String β} {b : β}
    (h : e.bind f = .ok b) : ∃ a, e = .ok a ∧ f a = .ok b := by
  cases e with
  | error s => exact Except.noConfusion h
  | ok a => exact ⟨a, rfl, h⟩

theorem lookup_append {β : Type} (k : String) (l1 l2 : List (String × β)) :
    List.lookup k (l1 ++ l2) =
      match List.lookup k l1 with
      | some v => some v
      | none => List.lookup k l2 := by
  induction l1 with
  | nil => rfl
  | cons kv l1 ih =>
    obtain ⟨k1, v1⟩ := kv
    simp only [List.cons_append, List.lookup]
    cases hk : k == k1
    · simp only []
      exact ih
    · rfl

theorem cell_append_left (r1 t : Row) (c : String) (v : Val)
    (h : List.lookup c r1 = some v) : cell (r1 ++ t) c = v := by
  unfold cell
  rw [lookup_append, h]
  rfl

theorem lookup_of_cell_ne_null (r : Row) (c : String)
    (h : cell r c ≠ Val.null) : List.lookup c r = some (cell r c) := by
  cases hl : List.lookup c r with
  | none =>
    exfalso
    apply h
    unfold cell
    rw [hl]
    rfl
  | some v =>
    unfold cell
    rw [hl]
    rfl

theorem lookup_map_set (r : Row) (c : String) (v : Val)
    (h : (List.lookup c r).isSome) :
    List.lookup c (r.map (fun kv => if kv.1 = c then (c, v) else kv)) = some v := by
  induction r with
  | nil => cases h
  | cons kv rest ih =>
    obtain ⟨k1, v1⟩ := kv
    by_cases hk : k1 = c
    · subst hk
      rw [show ((k1, v1) :: rest).map (fun kv => if kv.1 = k1 then (k1, v) else kv) =
          (k1, v) :: rest.map (fun kv => if kv.1 = k1 then (k1, v) else kv) by
        simp]
      simp [List.lookup]
    · rw [show ((k1, v1) :: rest).map (fun kv => if kv.1 = c then (c, v) else kv) =
          (k1, v1) :: rest.map (fun kv => if kv.1 = c then (c, v) else kv) by
        simp [hk]]
      have hck : (c == k1) = false := by
        simp [Ne.symm hk]
      simp only [List.lookup, hck]
      apply ih
      simp only [List.lookup, hck] at h
      exact h

theorem cell_setCell_self (r : Row) (c : String) (v : Val) :
    cell (setCell r c v) c = v := by
  unfold setCell
  by_cases h : (List.lookup c r).isSome
  · rw [if_pos h]
    unfold cell
    rw [lookup_map_set r c v h]
    rfl
  · rw [if_neg h]
    unfold cell
    rw [lookup_append]
    cases hl : List.lookup c r with
    | some w =>
      rw [hl] at h
      exact absurd rfl h
    | none =>
      simp [List.lookup]

theorem lookup_map_set_ne (r : Row) (c c' : String) (v : Val) (hne : c' ≠ c) :
    List.lookup c' (r.map (fun kv => if kv.1 = c then (c, v) else kv)) =
      List.lookup c' r := by
  induction r with
  | nil => rfl
  | cons kv rest ih =>
    obtain ⟨k1, v1⟩ := kv
    by_cases hk : k1 = c
    · subst hk
      rw [show ((k1, v1) :: rest).map (fun kv => if kv.1 = k1 then (k1, v) else kv) =
          (k1, v) :: rest.map (fun kv => if kv.1 = k1 then (k1, v) else kv) by
        simp]
      have hck : (c' == k1) = false := by
        simp [hne]
      simp only [List.lookup, hck]
      exact ih
    · rw [show ((k1, v1) :: rest).map (fun kv => if kv.1 = c then (c, v) else kv) =
          (k1, v1) :: rest.map (fun kv => if kv.1 = c then (c, v) else kv) by
        simp [hk]]
      simp only [List.lookup]
      cases hc : c' == k1
      · exact ih
      · rfl

theorem cell_setCell_ne (r : Row) (c c' : String) (v : Val) (hne : c' ≠ c) :
    cell (setCell r c v) c' = cell r c' := by
  unfold setCell
  by_cases h : (List.lookup c r).isSome
  · rw [if_pos h]
    unfold cell
    rw [lookup_map_set_ne r c c' v hne]
  · rw [if_neg h]
    unfold cell
    rw [lookup_append]
    cases hl : List.lookup c' r with
    | some w => rfl
    | none =>
      have : (c' == c) = false := by
        simp [hne]
      simp [List.lookup, this]

theorem zipWith_mem_decomp {α β γ : Type} {f : α → β → γ} :
    ∀ {as : List α} {bs : List β} {x : γ},
      x ∈ List.zipWith f as bs → ∃ a b, a ∈ as ∧ b ∈ bs ∧ x = f a b := by
  intro as
  induction as with
  | nil =>
    intro bs x h
    cases h
  | cons a as ih =>
    intro bs x h
    cases bs with
    | nil => cases h
    | cons b bs =>
      rw [List.zipWith_cons_cons] at h
      cases h with
      | head =>
        exact ⟨a, b, List.mem_cons_self _ _, List.mem_cons_self _ _, rfl⟩
      | tail _ hx =>
        obtain ⟨a0, b0, ha, hb, hx0⟩ := ih hx
        exact ⟨a0, b0, List.mem_cons_of_mem _ ha, List.mem_cons_of_mem _ hb, hx0⟩

theorem setCol_cols_of_mem (df : DataFrame) (c : String) (vs : List Val)
    (h : c ∈ df.cols) : (setCol df c vs).cols = df.cols := by
  unfold setCol
  rw [if_pos h]

theorem setCol_cols_of_not_mem (df : DataFrame) (c : String) (vs : List Val)
    (h : c ∉ df.cols) : (setCol df c vs).cols = df.cols ++ [c] := by
  unfold setCol
  rw [if_neg h]

theorem setCol_cols_mono (df : DataFrame) (c a : String) (vs : List Val)
    (h : a ∈ df.cols) : a ∈ (setCol df c vs).cols := by
  unfold setCol
  by_cases hc : c ∈ df.cols
  · rw [if_pos hc]
    exact h
  · rw [if_neg hc]
    exact List.mem_append_left _ h

theorem zipWith_set_map_cell (rows : List Row) (c : String) (vs : List Val)
    (hlen : vs.length = rows.length) :
    (List.zipWith (fun r v => setCell r c v) rows vs).map (fun r => cell r c) = vs := by
  induction rows generalizing vs with
  | nil =>
    cases vs with
    | nil => rfl
    | cons v vs => simp at hlen
  | cons r rows ih =>
    cases vs with
    | nil => simp at hlen
    | cons v vs =>
      simp only [List.zipWith_cons_cons, List.map_cons, cell_setCell_self]
      rw [ih vs (by simpa using hlen)]

theorem colVals_setCol_self (df : DataFrame) (c : String) (vs : List Val)
    (hlen : vs.length = df.rows.length) :
    colVals (setCol df c vs) c = vs :=
  zipWith_set_map_cell df.rows c vs hlen

theorem zipWith_set_map_cell_ne (rows : List Row) (c c' : String) (vs : List Val)
    (hne : c' ≠ c) (hlen : vs.length = rows.length) :
    (List.zipWith (fun r v => setCell r c v) rows vs).map (fun r => cell r c') =
      rows.map (fun r => cell r c') := by
  induction rows generalizing vs with
  | nil => rfl
  | cons r rows ih =>
    cases vs with
    | nil => simp at hlen
    | cons v vs =>
      simp only [List.zipWith_cons_cons, List.map_cons, cell_setCell_ne r c c' v hne]
      rw [ih vs (by simpa using hlen)]

theorem colVals_setCol_ne (df : DataFrame) (c c' : String) (vs : List Val)
    (hne : c' ≠ c) (hlen : vs.length = df.rows.length) :
    colVals (setCol df c vs) c' = colVals df c' :=
  zipWith_set_map_cell_ne df.rows c c' vs hne hlen

theorem setCol_rows_length (df : DataFrame) (c : String) (vs : List Val)
    (hlen : vs.length = df.rows.length) :
    (setCol df c vs).rows.length = df.rows.length := by
  unfold setCol
  rw [List.length_zipWith]
  omega

theorem getCol_ok (df : DataFrame) (c : String) (vs : List Val)
    (h : getCol df c = .ok vs) : vs = colVals df c ∧ c ∈ df.cols := by
  unfold getCol at h
  by_cases hc : c ∈ df.cols
  · rw [if_pos hc] at h
    exact ⟨(Except.ok.inj h).symm, hc⟩
  · rw [if_neg hc] at h
    exact Except.noConfusion h

/-- Counterexample to C3 as stated: on the empty record list the embedded
pipeline raises the KeyError of drop_duplicates on the column-less empty
frame instead of producing 27 empty report tables. -/
theorem c3_counterexample :
    pipelineAll ([] : List RawRecord) = Except.error "KeyError: product_code" := rfl

/-- C3 as amended: on an empty input the cleaning step itself raises a
KeyError for product_code, because pd.DataFrame of an empty row list has no
columns at all, so the whole pipeline fails and no report table is produced. -/
theorem c3_empty_input_raises :
    clean_transform ([] : List RawRecord) = Except.error "KeyError: product_code" ∧
    isErrE (pipelineAll ([] : List RawRecord)) = true :=
  ⟨rfl, rfl⟩

theorem runQueries_isErr (qs : List (String × (DataFrame → Except String DataFrame)))
    (df : DataFrame) (h : ∃ p ∈ qs, isErrE (p.2 df) = true) :
    isErrE (runQueries qs df) = true := by
  induction qs with
  | nil =>
    obtain ⟨p, hp, _⟩ := h
    cases hp
  | cons q qs ih =>
    obtain ⟨n, f⟩ := q
    show isErrE ((f df).bind fun t => (runQueries qs df).bind fun rest => .ok ((n, t) :: rest)) = true
    cases hf : f df with
    | error e => rfl
    | ok t =>
      obtain ⟨p, hp, hperr⟩ := h
      cases hp with
      | head =>
        have hperr2 : isErrE (f df) = true := hperr
        rw [hf] at hperr2
        exact absurd hperr2 (by simp [isErrE])
      | tail _ hmem =>
        have hrest := ih ⟨p, hmem, hperr⟩
        cases hr : runQueries qs df with
        | error e => rfl
        | ok outs =>
          rw [hr] at hrest
          exact absurd hrest (by simp [isErrE])

/-- C1 as amended: per-query failures are not isolated.  If any of the 27
queries raises on the shared frame, step_analytics itself raises: the
exception propagates, the failing query is not skipped, no name is recorded,
and the queries after the first failing one are never computed. -/
theorem c1_per_query_failure_aborts (df d : DataFrame)
    (hp : analyticsPrep df = .ok d) (i : Fin queries27.length)
    (hf : isErrE ((queries27.get i).2 d) = true) :
    isErrE (step_analytics df) = true := by
  have hq : ∃ p ∈ queries27, isErrE (p.2 d) = true :=
    ⟨queries27.get i, List.get_mem queries27 i.1 i.2, hf⟩
  have hr := runQueries_isErr queries27 d hq
  show isErrE ((analyticsPrep df).bind fun d0 =>
    (runQueries queries27 d0).bind fun outs => .ok (d0, outs)) = true
  rw [hp]
  show isErrE ((runQueries queries27 d).bind fun outs => .ok (d, outs)) = true
  cases hrq : runQueries queries27 d with
  | error e => rfl
  | ok outs =>
    rw [hrq] at hr
    exact absurd hr (by simp [isErrE])

/-- Concrete instance of the amended C1: on an engineered table whose
fat_value column is missing, step_analytics raises. -/
theorem c1_witness : isErrE (step_analytics dfNoFat) = true :=
  c1_per_query_failure_aborts dfNoFat dNoFat rfl ⟨8, by decide⟩ rfl

/-- Counterexample to C1 as stated: on an engineered table missing only the
fat_value column, exactly one of the 27 queries fails individually, yet the
whole analytics step aborts with that KeyError instead of skipping the
failing query and computing the other 26. -/
theorem c1_counterexample :
    step_analytics dfNoFat = Except.error "KeyError: fat_value" ∧
    countFailing dfNoFat = 1 :=
  ⟨rfl, by decide⟩

theorem step_analytics_table (df d : DataFrame)
    (h : (step_analytics df).toOption.map Prod.fst = some d) :
    analyticsPrep df = .ok d := by
  cases hsa : step_analytics df with
  | error e =>
    rw [hsa] at h
    exact Option.noConfusion h
  | ok pr =>
    rw [hsa] at h
    have hd : pr.1 = d := Option.some.inj h
    have hsa2 : ((analyticsPrep df).bind fun d0 =>
        (runQueries queries27 d0).bind fun outs => .ok (d0, outs)) = .ok pr := hsa
    obtain ⟨d0, hp, hrest⟩ := bind_ok_ex hsa2
    obtain ⟨outs, _, hpure⟩ := bind_ok_ex hrest
    have : (d0, outs) = pr := Except.ok.inj hpure
    rw [hp, ← hd, ← this]

/-- C2 as amended: the report step is not a pure read of the engineered
table.  Before any query runs, step_analytics writes the shared frame twice,
filling null brands with Unknown and appending a duplicate sugartocarbratio
column; all other columns are unchanged, and the 27 queries themselves then
only read the frame (they are modelled as functions of it). -/
theorem c2_prep_mutates (df d : DataFrame)
    (h : (step_analytics df).toOption.map Prod.fst = some d)
    (hnew : "sugartocarbratio" ∉ df.cols) :
    d.cols = df.cols ++ ["sugartocarbratio"] ∧
    colVals d "brand" = (colVals df "brand").map fillUnknown ∧
    (∀ c, c ≠ "brand" → c ≠ "sugartocarbratio" → colVals d c = colVals df c) := by
  have hp := step_analytics_table df d h
  have hp2 : ((getCol df "brand").bind fun bs =>
      (getCol (setCol df "brand" (bs.map fillUnknown)) "sugar_to_carb_ratio").bind fun rs =>
        .ok (setCol (setCol df "brand" (bs.map fillUnknown)) "sugartocarbratio" rs)) = .ok d := hp
  obtain ⟨bs, hbs, hrest⟩ := bind_ok_ex hp2
  obtain ⟨rs, hrs, hpure⟩ := bind_ok_ex hrest
  obtain ⟨hbs_eq, hbrand_mem⟩ := getCol_ok df "brand" bs hbs
  have hd : d = setCol (setCol df "brand" (bs.map fillUnknown)) "sugartocarbratio" rs :=
    (Except.ok.inj hpure).symm
  obtain ⟨hrs_eq, _⟩ := getCol_ok (setCol df "brand" (bs.map fillUnknown))
    "sugar_to_carb_ratio" rs hrs
  have hlen_bs : (bs.map fillUnknown).length = df.rows.length := by
    rw [hbs_eq]
    simp [colVals]
  have hcols1 : (setCol df "brand" (bs.map fillUnknown)).cols = df.cols :=
    setCol_cols_of_mem df "brand" _ hbrand_mem
  have hrows1 : (setCol df "brand" (bs.map fillUnknown)).rows.length = df.rows.length :=
    setCol_rows_length df "brand" _ hlen_bs
  have hlen_rs : rs.length = (setCol df "brand" (bs.map fillUnknown)).rows.length := by
    rw [hrs_eq]
    simp [colVals]
  refine ⟨?_, ?_, ?_⟩
  · rw [hd, setCol_cols_of_not_mem _ _ _ (by rw [hcols1]; exact hnew), hcols1]
  · rw [hd, colVals_setCol_ne _ _ _ _ (by decide) hlen_rs,
      colVals_setCol_self df "brand" _ hlen_bs, hbs_eq]
  · intro c hcb hcn
    rw [hd, colVals_setCol_ne _ _ _ _ hcn hlen_rs,
      colVals_setCol_ne df "brand" c _ hcb hlen_bs]

/-- Concrete instance of the amended C2: on an engineered frame with the full
schema, the table after step_analytics carries the extra sugartocarbratio
column. -/
theorem c2_witness :
    dFull.cols = dfFull.cols ++ ["sugartocarbratio"] ∧
    colVals dFull "brand" = (colVals dfFull "brand").map fillUnknown ∧
    (∀ c, c ≠ "brand" → c ≠ "sugartocarbratio" → colVals dFull c = colVals dfFull c) :=
  c2_prep_mutates dfFull dFull rfl (by decide)

/-- Counterexample to C2 as stated: after the 27 queries are computed the
shared table differs from the one the Feature Deriver produced; a column
named sugartocarbratio has been added. -/
theorem c2_counterexample :
    (step_analytics dfFull).toOption.map Prod.fst = some dFull ∧
    decide (dFull = dfFull) = false :=
  ⟨rfl, by decide⟩

theorem dedupByAux_subset {α β : Type} (f : α → β) [DecidableEq β] :
    ∀ (seen : List β) (l : List α) (x : α), x ∈ dedupByAux f seen l → x ∈ l := by
  intro seen l
  induction l generalizing seen with
  | nil =>
    intro x hx
    cases hx
  | cons a tl ih =>
    intro x hx
    unfold dedupByAux at hx
    by_cases hmem : f a ∈ seen
    · rw [if_pos hmem] at hx
      exact List.mem_cons_of_mem _ (ih seen x hx)
    · rw [if_neg hmem] at hx
      cases hx with
      | head => exact List.mem_cons_self _ _
      | tail _ hx2 => exact List.mem_cons_of_mem _ (ih (f a :: seen) x hx2)

theorem dedupByAux_first_occ {α β : Type} (f : α → β) [DecidableEq β] :
    ∀ (seen : List β) (l : List α) (x : α), x ∈ dedupByAux f seen l →
      f x ∉ seen ∧ l.find? (fun y => f y == f x) = some x := by
  intro seen l
  induction l generalizing seen with
  | nil =>
    intro x hx
    cases hx
  | cons a tl ih =>
    intro x hx
    unfold dedupByAux at hx
    by_cases hmem : f a ∈ seen
    · rw [if_pos hmem] at hx
      obtain ⟨hns, hfind⟩ := ih seen x hx
      have hne : (f a == f x) = false := by
        simp only [beq_eq_false_iff_ne, ne_eq]
        intro hcon
        exact hns (hcon ▸ hmem)
      refine ⟨hns, ?_⟩
      rw [List.find?_cons, hne]
      exact hfind
    · rw [if_neg hmem] at hx
      cases hx with
      | head =>
        refine ⟨hmem, ?_⟩
        rw [List.find?_cons, beq_self_eq_true]
      | tail _ hx2 =>
        obtain ⟨hns, hfind⟩ := ih (f a :: seen) x hx2
        have hxa : f x ≠ f a := by
          intro hcon
          exact hns (by rw [hcon]; exact List.mem_cons_self _ _)
        refine ⟨fun hcon => hns (List.mem_cons_of_mem _ hcon), ?_⟩
        rw [List.find?_cons, show (f a == f x) = false by
          simp only [beq_eq_false_iff_ne, ne_eq]
          exact fun hcon => hxa hcon.symm]
        exact hfind

theorem dedupByAux_map_nodup {α β : Type} (f : α → β) [DecidableEq β] :
    ∀ (seen : List β) (l : List α),
      ((dedupByAux f seen l).map f).Nodup ∧
      ∀ x ∈ dedupByAux f seen l, f x ∉ seen := by
  intro seen l
  induction l generalizing seen with
  | nil =>
    exact ⟨List.nodup_nil, fun x hx => absurd hx (by intro h; cases h)⟩
  | cons a tl ih =>
    unfold dedupByAux
    by_cases hmem : f a ∈ seen
    · rw [if_pos hmem]
      exact ih seen
    · rw [if_neg hmem]
      obtain ⟨hnd, hnse⟩ := ih (f a :: seen)
      refine ⟨?_, ?_⟩
      · rw [List.map_cons]
        refine List.nodup_cons.mpr ⟨?_, hnd⟩
        intro hcon
        obtain ⟨x, hx, hfx⟩ := List.mem_map.mp hcon
        exact hnse x hx (by rw [hfx]; exact List.mem_cons_self _ _)
      · intro x hx
        cases hx with
        | head => exact hmem
        | tail _ hx2 =>
          exact fun hcon => hnse x hx2 (List.mem_cons_of_mem _ hcon)

theorem dedupBy_subset {α β : Type} (f : α → β) [DecidableEq β] (l : List α) :
    ∀ x ∈ dedupBy f l, x ∈ l :=
  fun x hx => dedupByAux_subset f [] l x hx

theorem dedupBy_first_occ {α β : Type} (f : α → β) [DecidableEq β] (l : List α)
    (x : α) (hx : x ∈ dedupBy f l) : l.find? (fun y => f y == f x) = some x :=
  (dedupByAux_first_occ f [] l x hx).2

theorem dedupBy_map_nodup {α β : Type} (f : α → β) [DecidableEq β] (l : List α) :
    ((dedupBy f l).map f).Nodup :=
  (dedupByAux_map_nodup f [] l).1

theorem find?_map_comp {α β : Type} (g : α → β) (p : β → Bool) :
    ∀ l : List α, (l.map g).find? p = Option.map g (l.find? (fun a => p (g a))) := by
  intro l
  induction l with
  | nil => rfl
  | cons a tl ih =>
    rw [List.map_cons, List.find?_cons, List.find?_cons]
    cases hp : p (g a)
    · exact ih
    · rfl

theorem filter_nil_of_none {α : Type} (p : α → Bool) :
    ∀ l : List α, (∀ x ∈ l, p x = false) → l.filter p = [] := by
  intro l h
  induction l with
  | nil => rfl
  | cons a tl ih =>
    rw [List.filter_cons, h a (List.mem_cons_self _ _)]
    exact ih (fun x hx => h x (List.mem_cons_of_mem _ hx))

theorem filter_key_len_le_one {α β : Type} [DecidableEq β] (g : α → β) (l : List α)
    (hnd : (l.map g).Nodup) (v : β) :
    (l.filter (fun x => g x == v)).length ≤ 1 := by
  induction l with
  | nil => simp
  | cons a tl ih =>
    rw [List.map_cons, List.nodup_cons] at hnd
    obtain ⟨hna, hnd2⟩ := hnd
    rw [List.filter_cons]
    cases hp : (g a == v)
    · exact ih hnd2
    · have hv : g a = v := by
        exact beq_iff_eq.mp hp
      have hnil : tl.filter (fun x => g x == v) = [] := by
        apply filter_nil_of_none
        intro x hx
        by_contra hcon
        have hx2 : g x = v := beq_iff_eq.mp (by
          cases hgx : (g x == v)
          · exact absurd hgx hcon
          · rfl)
        exact hna (List.mem_map.mpr ⟨x, hx, by rw [hx2, hv]⟩)
      rw [hnil]
      simp

theorem mergeRows_shape (rows2 : List Row) (cols2 : List String) (c : String)
    (r1 r : Row) (h : r ∈ mergeRows rows2 cols2 c r1) : ∃ t, r = r1 ++ t := by
  unfold mergeRows at h
  cases hf : rows2.filter (fun r2 => cell r2 c == cell r1 c) with
  | nil =>
    rw [hf] at h
    cases h with
    | head => exact ⟨padRight cols2, rfl⟩
    | tail _ h2 => cases h2
  | cons m ms =>
    rw [hf] at h
    obtain ⟨r2, _, hr2⟩ := List.mem_map.mp h
    exact ⟨r2.filter (fun kv => kv.1 ≠ c), hr2.symm⟩

theorem mergeRows_singleton (rows2 : List Row) (cols2 : List String) (c : String)
    (r1 : Row) (hnd : (rows2.map (fun r => cell r c)).Nodup) :
    ∃ row, mergeRows rows2 cols2 c r1 = [row] ∧ ∃ t, row = r1 ++ t := by
  have hlen := filter_key_len_le_one (fun r => cell r c) rows2 hnd (cell r1 c)
  unfold mergeRows
  cases hf : rows2.filter (fun r2 => cell r2 c == cell r1 c) with
  | nil =>
    exact ⟨r1 ++ padRight cols2, rfl, padRight cols2, rfl⟩
  | cons m ms =>
    rw [hf] at hlen
    have hms : ms = [] := by
      rw [List.length_cons] at hlen
      exact List.length_eq_zero.mp (by omega)
    subst hms
    exact ⟨r1 ++ m.filter (fun kv => kv.1 ≠ c), rfl, m.filter (fun kv => kv.1 ≠ c), rfl⟩

theorem flatMap_singletons {α β γ : Type} (f : α → List β) (g : β → γ) (h : α → γ)
    (l : List α) (hf : ∀ x ∈ l, ∃ y, f x = [y] ∧ g y = h x) :
    (l.flatMap f).map g = l.map h ∧ (l.flatMap f).length = l.length := by
  induction l with
  | nil => exact ⟨rfl, rfl⟩
  | cons a tl ih =>
    obtain ⟨y, hy, hgy⟩ := hf a (List.mem_cons_self _ _)
    obtain ⟨ih1, ih2⟩ := ih (fun x hx => hf x (List.mem_cons_of_mem _ hx))
    rw [List.flatMap_cons, hy]
    constructor
    · rw [List.map_append, List.map_cons, ih1, hgy]
      rfl
    · rw [List.length_append, ih2, List.length_cons]
      show 1 + tl.length = tl.length + 1
      omega

theorem dropDuplicates_ok (df : DataFrame) (c : String) (out : DataFrame)
    (h : dropDuplicates df c = .ok out) :
    out.cols = df.cols ∧ out.rows = dedupBy (fun r => cell r c) df.rows ∧ c ∈ df.cols := by
  unfold dropDuplicates at h
  by_cases hc : c ∈ df.cols
  · rw [if_pos hc] at h
    have := Except.ok.inj h
    rw [← this]
    exact ⟨rfl, rfl, hc⟩
  · rw [if_neg hc] at h
    exact Except.noConfusion h

theorem mergeLeft_ok (df1 df2 : DataFrame) (c : String) (out : DataFrame)
    (h : mergeLeft df1 df2 c = .ok out) :
    out.cols = df1.cols ++ df2.cols.filter (fun x => x ≠ c) ∧
    out.rows = df1.rows.flatMap
      (mergeRows df2.rows (df2.cols.filter (fun x => x ≠ c)) c) ∧
    c ∈ df1.cols ∧ c ∈ df2.cols := by
  unfold mergeLeft at h
  by_cases hc : c ∈ df1.cols ∧ c ∈ df2.cols
  · rw [if_pos hc] at h
    have := Except.ok.inj h
    rw [← this]
    exact ⟨rfl, rfl, hc⟩
  · rw [if_neg hc] at h
    exact Except.noConfusion h

theorem clean_transform_ok (records : List RawRecord) (dfp dfn dfd : DataFrame)
    (h : clean_transform records = .ok (dfp, dfn, dfd)) :
    dfp.rows = dedupBy (fun r => cell r "product_code") (records.map prow) ∧
    dfn.rows = dedupBy (fun r => cell r "product_code") (records.map nrow) ∧
    dfp.cols = inferCols (records.map prow) ∧
    dfn.cols = inferCols (records.map nrow) := by
  have h2 : ((dropDuplicates (mkFrame (records.map prow)) "product_code").bind fun dfp0 =>
      (dropDuplicates (mkFrame (records.map nrow)) "product_code").bind fun dfn0 =>
        (dropDuplicates (mkFrame (records.map drow)) "product_code").bind fun dfd0 =>
          .ok (dfp0, dfn0, dfd0)) = .ok (dfp, dfn, dfd) := h
  obtain ⟨dfp0, hp0, hrest⟩ := bind_ok_ex h2
  obtain ⟨dfn0, hn0, hrest2⟩ := bind_ok_ex hrest
  obtain ⟨dfd0, hd0, hpure⟩ := bind_ok_ex hrest2
  have htriple := Except.ok.inj hpure
  have hp1 : dfp0 = dfp := congrArg Prod.fst htriple
  have hn1 : dfn0 = dfn := congrArg (fun t => t.2.1) htriple
  obtain ⟨hpc, hpr, _⟩ := dropDuplicates_ok _ _ _ hp0
  obtain ⟨hnc, hnr, _⟩ := dropDuplicates_ok _ _ _ hn0
  rw [← hp1, ← hn1]
  exact ⟨hpr, hnr, hpc, hnc⟩

/-- C4: deduplication keeps the first occurrence.  For every record list that
cleans successfully, the merged table has pairwise distinct product_code
cells, every merged row takes its product_name and brand from the first raw
record carrying its product_code (normalized by the Record Normalizer), and
the left join is identity-driven: the merged table has exactly one row per
surviving identity row, so nutrient rows without a matching identity
contribute nothing. -/
theorem c4_dedup_first_join (records : List RawRecord) (dfp dfn dfd merged : DataFrame)
    (hc : clean_transform records = .ok (dfp, dfn, dfd))
    (hm : mergeLeft dfp dfn "product_code" = .ok merged) :
    (merged.rows.map (fun r => cell r "product_code")).Nodup ∧
    (∀ r ∈ merged.rows,
      ∃ p, records.find? (fun q => codeVal q == cell r "product_code") = some p ∧
        cell r "product_name" = Val.str (nameOf p) ∧
        cell r "brand" = Val.str (normalize_brand p.brands)) ∧
    merged.rows.length = dfp.rows.length := by
  obtain ⟨hpr, hnr, _, _⟩ := clean_transform_ok records dfp dfn dfd hc
  obtain ⟨hmc, hmr, _, _⟩ := mergeLeft_ok dfp dfn "product_code" merged hm
  have hnd_n : (dfn.rows.map (fun r => cell r "product_code")).Nodup := by
    rw [hnr]
    exact dedupBy_map_nodup _ _
  have hprow : ∀ r1 ∈ dfp.rows, ∃ p, p ∈ records ∧ r1 = prow p := by
    intro r1 h1
    rw [hpr] at h1
    obtain ⟨p, hp, he⟩ := List.mem_map.mp (dedupBy_subset _ _ r1 h1)
    exact ⟨p, hp, he.symm⟩
  have hsingle : ∀ r1 ∈ dfp.rows, ∃ y,
      mergeRows dfn.rows (dfn.cols.filter (fun x => x ≠ "product_code")) "product_code" r1 =
        [y] ∧ cell y "product_code" = cell r1 "product_code" := by
    intro r1 h1
    obtain ⟨row, hrow, t, ht⟩ := mergeRows_singleton dfn.rows _ "product_code" r1 hnd_n
    obtain ⟨p, _, hp⟩ := hprow r1 h1
    refine ⟨row, hrow, ?_⟩
    rw [ht, hp]
    exact cell_append_left _ _ _ _ rfl
  obtain ⟨hmap, hlen⟩ := flatMap_singletons
    (mergeRows dfn.rows (dfn.cols.filter (fun x => x ≠ "product_code")) "product_code")
    (fun r => cell r "product_code") (fun r => cell r "product_code") dfp.rows hsingle
  refine ⟨?_, ?_, ?_⟩
  · rw [hmr, hmap, hpr]
    exact dedupBy_map_nodup _ _
  · intro r hr
    rw [hmr] at hr
    obtain ⟨r1, h1, hr2⟩ := List.mem_flatMap.mp hr
    obtain ⟨t, ht⟩ := mergeRows_shape _ _ _ _ _ hr2
    rw [hpr] at h1
    have hfind := dedupBy_first_occ (fun r => cell r "product_code") (records.map prow) r1 h1
    obtain ⟨p1, _, hr1p⟩ : ∃ p, p ∈ records ∧ r1 = prow p := by
      obtain ⟨p, hp, he⟩ := List.mem_map.mp (dedupBy_subset _ _ r1 h1)
      exact ⟨p, hp, he.symm⟩
    have hcr : cell r "product_code" = cell r1 "product_code" := by
      rw [ht, hr1p]
      exact cell_append_left _ _ _ _ rfl
    rw [find?_map_comp] at hfind
    obtain ⟨p0, hfind0, hp0r⟩ := Option.map_eq_some'.mp hfind
    refine ⟨p0, ?_, ?_, ?_⟩
    · rw [hcr]
      exact hfind0
    · rw [ht, ← hp0r]
      exact cell_append_left _ _ _ _ rfl
    · rw [ht, ← hp0r]
      exact cell_append_left _ _ _ _ rfl
  · rw [hmr]
    exact hlen

/-- Concrete instance of C4 at the duplicate-product scenario of the
specification: two records share product_code 000123 and the merged table
keeps exactly the first, with one row in total. -/
theorem c4_witness :
    (merged4.rows.map (fun r => cell r "product_code")).Nodup ∧
    merged4.rows.length = dfp4.rows.length ∧
    cell (merged4.rows.head (by decide)) "brand" = Val.str "Lindt" := by
  have h := c4_dedup_first_join recs4 dfp4 dfn4 dfd4 merged4 rfl rfl
  exact ⟨h.1, h.2.2, by decide⟩

theorem inferCols_mono (l : List Row) (acc : List String) (a : String) (ha : a ∈ acc) :
    a ∈ l.foldl
      (fun acc r => acc ++ (r.map Prod.fst).filter (fun c => !(acc.contains c))) acc := by
  induction l generalizing acc with
  | nil => exact ha
  | cons r tl ih => exact ih _ (List.mem_append_left _ ha)

theorem mem_inferCols_prow (p : RawRecord) (tl : List Row) (a : String)
    (ha : a ∈ (["product_code", "product_name", "brand"] : List String)) :
    a ∈ inferCols (prow p :: tl) := by
  unfold inferCols
  rw [List.foldl_cons]
  apply inferCols_mono
  rw [show (([] : List String) ++
      ((prow p).map Prod.fst).filter (fun c => !(([] : List String).contains c))) =
      ["product_code", "product_name", "brand"] from rfl]
  exact ha

theorem setCol_pres_pn (df : DataFrame) (c : String) (vs : List Val)
    (hne : ("product_name" : String) ≠ c)
    (h1 : ∀ r ∈ df.rows, ∃ s, cell r "product_name" = Val.str s)
    (h2 : "product_name" ∈ df.cols) :
    (∀ r ∈ (setCol df c vs).rows, ∃ s, cell r "product_name" = Val.str s) ∧
    "product_name" ∈ (setCol df c vs).cols := by
  constructor
  · intro r hr
    obtain ⟨a, v, ha, _, he⟩ := zipWith_mem_decomp hr
    obtain ⟨s, hs⟩ := h1 a ha
    exact ⟨s, by rw [he, cell_setCell_ne a c "product_name" v hne, hs]⟩
  · exact setCol_cols_mono df c "product_name" vs h2

theorem mapColF_ok (df : DataFrame) (c : String) (f : Val → Val) (out : DataFrame)
    (h : mapColF df c f = .ok out) :
    out = setCol df c ((colVals df c).map f) ∧ c ∈ df.cols := by
  have h2 : ((getCol df c).bind fun vs => .ok (setCol df c (vs.map f))) = .ok out := h
  obtain ⟨vs, hvs, hpure⟩ := bind_ok_ex h2
  obtain ⟨hveq, hc⟩ := getCol_ok df c vs hvs
  refine ⟨?_, hc⟩
  rw [← Except.ok.inj hpure, hveq]

theorem mapColF_pres_pn (df : DataFrame) (c : String) (f : Val → Val) (out : DataFrame)
    (h : mapColF df c f = .ok out) (hne : ("product_name" : String) ≠ c)
    (h1 : ∀ r ∈ df.rows, ∃ s, cell r "product_name" = Val.str s)
    (h2 : "product_name" ∈ df.cols) :
    (∀ r ∈ out.rows, ∃ s, cell r "product_name" = Val.str s) ∧
    "product_name" ∈ out.cols := by
  obtain ⟨hout, _⟩ := mapColF_ok df c f out h
  rw [hout]
  exact setCol_pres_pn df c _ hne h1 h2

/-- C10: in the in-memory pipeline the product_name cell of every row
reaching the report generator is a string, never null, because the
normalizer substitutes Unknown for absent or empty names, so query
q04_missing_product_name always returns a table with zero rows. -/
theorem c10_q04_always_empty (records : List RawRecord) (d : DataFrame)
    (h : analyticsInput records = .ok d) :
    (∀ r ∈ d.rows, (cell r "product_name").isna = false) ∧
    q04fn d = .ok ⟨d.cols, []⟩ := by
  have h2 : ((clean_transform records).bind fun r =>
      (feature_engineer r.1 r.2.1).bind fun df => analyticsPrep df) = .ok d := h
  obtain ⟨⟨dfp, dfn, dfd⟩, hclean, hrest⟩ := bind_ok_ex h2
  obtain ⟨df, heng, hprep⟩ := bind_ok_ex hrest
  obtain ⟨hpr, hnr, hpc, hnc⟩ := clean_transform_ok records dfp dfn dfd hclean
  -- the base invariant on the identity table
  have hPp : ∀ r ∈ dfp.rows, ∃ s, cell r "product_name" = Val.str s := by
    intro r hr
    rw [hpr] at hr
    obtain ⟨p, _, he⟩ := List.mem_map.mp (dedupBy_subset _ _ r hr)
    exact ⟨nameOf p, by rw [← he]; rfl⟩
  have hpnc : "product_name" ∈ dfp.cols := by
    cases records with
    | nil =>
      rw [show clean_transform ([] : List RawRecord) =
          Except.error "KeyError: product_code" from rfl] at hclean
      exact Except.noConfusion hclean
    | cons p tl =>
      rw [hpc, List.map_cons]
      exact mem_inferCols_prow p _ _ (by decide)
  -- through the merge
  obtain ⟨df0, hmerge, heng2⟩ := bind_ok_ex heng
  obtain ⟨hmc, hmr, _, _⟩ := mergeLeft_ok dfp dfn "product_code" df0 hmerge
  have hP0 : ∀ r ∈ df0.rows, ∃ s, cell r "product_name" = Val.str s := by
    intro r hr
    rw [hmr] at hr
    obtain ⟨r1, h1, hr2⟩ := List.mem_flatMap.mp hr
    obtain ⟨t, ht⟩ := mergeRows_shape _ _ _ _ _ hr2
    obtain ⟨s, hs⟩ := hPp r1 h1
    refine ⟨s, ?_⟩
    rw [ht]
    exact cell_append_left _ _ _ _ (by rw [lookup_of_cell_ne_null r1 "product_name" (by rw [hs]; exact fun hcon => Val.noConfusion hcon), hs])
  have hc0 : "product_name" ∈ df0.cols := by
    rw [hmc]
    exact List.mem_append_left _ hpnc
  -- through the four numeric coercions
  obtain ⟨df1, hm1, heng3⟩ := bind_ok_ex heng2
  obtain ⟨hP1, hc1⟩ := mapColF_pres_pn df0 "sugars_value" toNumericVal df1 hm1 (by decide) hP0 hc0
  obtain ⟨df2, hm2, heng4⟩ := bind_ok_ex heng3
  obtain ⟨hP2, hc2⟩ := mapColF_pres_pn df1 "carbohydrates_value" toNumericVal df2 hm2 (by decide) hP1 hc1
  obtain ⟨df3, hm3, heng5⟩ := bind_ok_ex heng4
  obtain ⟨hP3, hc3⟩ := mapColF_pres_pn df2 "energy-kcal_value" toNumericVal df3 hm3 (by decide) hP2 hc2
  obtain ⟨df4, hm4, heng6⟩ := bind_ok_ex heng5
  obtain ⟨hP4, hc4⟩ := mapColF_pres_pn df3 "nova-group" toNumericVal df4 hm4 (by decide) hP3 hc3
  -- the four derived columns
  obtain ⟨ss, hss, heng7⟩ := bind_ok_ex heng6
  obtain ⟨cs, hcs, heng8⟩ := bind_ok_ex heng7
  obtain ⟨hP5, hc5⟩ := setCol_pres_pn df4 "sugar_to_carb_ratio"
    (List.zipWith (fun s c => ofQ? (ratioOf s.toQ c.toQ)) ss cs) (by decide) hP4 hc4
  obtain ⟨es, hes, heng9⟩ := bind_ok_ex heng8
  obtain ⟨hP6, hc6⟩ := setCol_pres_pn _ "calorie_category"
    (es.map (fun v => Val.str (cat_cal v.toQ))) (by decide) hP5 hc5
  obtain ⟨s2, hs2, heng10⟩ := bind_ok_ex heng9
  obtain ⟨hP7, hc7⟩ := setCol_pres_pn _ "sugar_category"
    (s2.map (fun v => Val.str (cat_sug v.toQ))) (by decide) hP6 hc6
  obtain ⟨ns, hns, hengpure⟩ := bind_ok_ex heng10
  obtain ⟨hP8, hc8⟩ := setCol_pres_pn _ "is_ultra_processed"
    (ns.map (fun v => Val.str (ultraOf v.toQ))) (by decide) hP7 hc7
  have hdf : df = setCol
      (setCol
        (setCol
          (setCol df4 "sugar_to_carb_ratio"
            (List.zipWith (fun s c => ofQ? (ratioOf s.toQ c.toQ)) ss cs))
          "calorie_category" (es.map (fun v => Val.str (cat_cal v.toQ))))
        "sugar_category" (s2.map (fun v => Val.str (cat_sug v.toQ))))
      "is_ultra_processed" (ns.map (fun v => Val.str (ultraOf v.toQ))) :=
    (Except.ok.inj hengpure).symm
  have hPdf : ∀ r ∈ df.rows, ∃ s, cell r "product_name" = Val.str s := by
    rw [hdf]
    exact hP8
  have hcdf : "product_name" ∈ df.cols := by
    rw [hdf]
    exact hc8
  -- through the analytics prep writes
  have hprep2 : ((getCol df "brand").bind fun bs =>
      (getCol (setCol df "brand" (bs.map fillUnknown)) "sugar_to_carb_ratio").bind fun rs =>
        .ok (setCol (setCol df "brand" (bs.map fillUnknown)) "sugartocarbratio" rs)) = .ok d := hprep
  obtain ⟨bs, hbs, hprest⟩ := bind_ok_ex hprep2
  obtain ⟨rs, hrs, hppure⟩ := bind_ok_ex hprest
  obtain ⟨hPb, hcb⟩ := setCol_pres_pn df "brand" (bs.map fillUnknown) (by decide) hPdf hcdf
  obtain ⟨hPd, hcd⟩ := setCol_pres_pn _ "sugartocarbratio" rs (by decide) hPb hcb
  have hd : d = setCol (setCol df "brand" (bs.map fillUnknown)) "sugartocarbratio" rs :=
    (Except.ok.inj hppure).symm
  have hPfin : ∀ r ∈ d.rows, ∃ s, cell r "product_name" = Val.str s := by
    rw [hd]
    exact hPd
  have hcfin : "product_name" ∈ d.cols := by
    rw [hd]
    exact hcd
  have hisna : ∀ r ∈ d.rows, (cell r "product_name").isna = false := by
    intro r hr
    obtain ⟨s, hs⟩ := hPfin r hr
    rw [hs]
    rfl
  refine ⟨hisna, ?_⟩
  -- q04 on the shared frame
  show ((requireCols d ["product_name"]).bind fun _ =>
    .ok (filterDF d (fun r => (cell r "product_name").isna))) = .ok ⟨d.cols, []⟩
  have hreq : requireCols d ["product_name"] = .ok () := by
    unfold requireCols
    rw [show (["product_name"].find? fun c => !(d.cols.contains c)) = none from ?_]
    have hmem : d.cols.contains "product_name" = true := List.elem_eq_true_of_mem hcfin
    rw [List.find?_cons, hmem]
    rfl
  rw [hreq]
  show Except.ok (filterDF d (fun r => (cell r "product_name").isna)) = .ok ⟨d.cols, []⟩
  unfold filterDF
  rw [filter_nil_of_none _ d.rows hisna]

/-- Concrete instance of C10: for a record with no product_name at all, the
q04 table is still empty, because the normalizer put the string Unknown in
the cell. -/
theorem c10_witness : q04fn d10 = .ok ⟨d10.cols, []⟩ :=
  (c10_q04_always_empty recs10 d10 rfl).2
